import Mathlib

/-!
# Verification of the shortcuts-helper interaction analysis engine

Shallow embedding of the repository's TypeScript sources:

* the event tracker (`InteractionTracker`, bounded history buffer),
* the older polling analyzer (`Analyzer.analyze` with its ten detectors),
* the newer event-driven analyzer (`Analyzer.analyzeInteraction` with
  aggregation, context filters, cooldown/session-cap arbitration).

Timestamps are modelled as `Int` (JS millisecond clock values with true
subtraction); character counts and line/column indices as `Nat`.  A JS
exception (e.g. out-of-range `lineAt`, indexing an empty array) is modelled
with `Except Unit`; mutations of `this` performed before a throw are kept by
returning the updated state alongside the `Except` value.
-/

/-- JS `s.substring(0, n)`: the first `n` characters (clamped). -/
def jsTake (s : String) (n : Nat) : String := String.mk (s.data.take n)

/-- JS `s.trim()`: strip whitespace from both ends (char-list based so that
concrete evaluation reduces in the kernel). -/
def jsTrim (s : String) : String :=
  String.mk (((s.data.dropWhile Char.isWhitespace).reverse.dropWhile
    Char.isWhitespace).reverse)

/-- JS `s.trimEnd()`. -/
def jsTrimEnd (s : String) : String :=
  String.mk ((s.data.reverse.dropWhile Char.isWhitespace).reverse)

/-- JS `s.startsWith(pre)`. -/
def jsStartsWith (s pre : String) : Bool := pre.data.isPrefixOf s.data

/-- JS `s.endsWith(suf)`. -/
def jsEndsWith (s suf : String) : Bool := suf.data.reverse.isPrefixOf s.data.reverse

/-- JS `s.includes(pat)`: substring containment test. -/
def strContains (s pat : String) : Bool :=
  (List.range (s.data.length + 1)).any (fun i => pat.data.isPrefixOf (s.data.drop i))

/-- vscode `TextLine.firstNonWhitespaceCharacterIndex`: offset of the first
non-whitespace character, or the line length if the line is all whitespace. -/
def firstNonWhitespaceIndex (s : String) : Nat :=
  match s.data.findIdx? (fun c => !c.isWhitespace) with
  | some i => i
  | none => s.length

/-- Common bounded-buffer push used by `InteractionTracker.addEvent`
(`MAX_EVENTS = 50`) and `Analyzer.pushToQueue` (`MAX_QUEUE_SIZE = 50`):
`push` the element, then `shift` (drop the oldest) once the length exceeds
the capacity. -/
def boundedAppend (cap : Nat) (buf : List α) (e : α) : List α :=
  let buf' := buf ++ [e]
  if cap < buf'.length then buf'.tail else buf'

/-- A recommendation surfaced to presentation (older analyzer). -/
structure Recommendation where
  id : String
  message : String
  shortcut : String
deriving DecidableEq, Repr

/-! ## Older tracker / polling analyzer (tracker.ts embedded in the README,
and the first `Analyzer` of the analyzer source) -/

/-- One `vscode.TextDocumentContentChangeEvent` as used by the old detectors:
inserted `text`, removed length `rangeLength`, and the start of the range. -/
structure OldContentChange where
  text : String
  rangeLength : Nat
  rangeStartLine : Nat
  rangeStartChar : Nat
deriving DecidableEq, Repr

/-- Document view used by the old detectors: `lineAt(n).text` and `getText`. -/
structure OldDocument where
  lines : List String
deriving DecidableEq, Repr

def OldDocument.lineAt? (d : OldDocument) (n : Nat) : Option String :=
  d.lines[n]?

/-- A (normalized) vscode selection range: `start ≤ end` positions. -/
structure OldSelection where
  startLine : Nat
  startChar : Nat
  endLine : Nat
  endChar : Nat
deriving DecidableEq, Repr

def OldSelection.isEmptySel (s : OldSelection) : Bool :=
  s.startLine == s.endLine && s.startChar == s.endChar

/-- vscode `document.getText(range)` over the line list (positions clamped,
lines joined with a newline), for the old `detectNextFindMatch`. -/
def OldDocument.getText (d : OldDocument) (s : OldSelection) : String :=
  if s.startLine == s.endLine then
    String.mk (((d.lines.getD s.startLine ("")).data.drop s.startChar).take (s.endChar - s.startChar))
  else
    let first := String.mk ((d.lines.getD s.startLine ("")).data.drop s.startChar)
    let midLines := (d.lines.drop (s.startLine + 1)).take (s.endLine - s.startLine - 1)
    let lastPart := String.mk ((d.lines.getD s.endLine ("")).data.take s.endChar)
    (midLines.foldl (fun acc l => acc ++ nl ++ l) first) ++ nl ++ lastPart
where nl : String := String.mk [Char.ofNat 10]

/-- The old tracker's `InteractionEvent`, with the kind-specific `data`
payload baked into the constructor (the tracker only ever builds these
shapes).  `affectedLines` is the textChange `context` snapshot. -/
inductive OldEvent where
  | textChange (timestamp : Int) (contentChanges : List OldContentChange)
      (document : OldDocument) (affectedLines : Option (List String))
  | selectionChange (timestamp : Int) (selections : List OldSelection)
      (document : OldDocument)
  | visibleRangeChange (timestamp : Int) (fileName : String)
  | activeEditorChange (timestamp : Int) (fileName : String)
  | visibleEditorsChange (timestamp : Int) (count : Nat)
  | windowStateChange (timestamp : Int) (focused : Bool)
  | fileSave (timestamp : Int) (fileName : String) (language : String)
  | activeTerminalChange (timestamp : Int) (name : String)
deriving DecidableEq, Repr

def OldEvent.timestamp : OldEvent → Int
  | .textChange t _ _ _ => t
  | .selectionChange t _ _ => t
  | .visibleRangeChange t _ => t
  | .activeEditorChange t _ => t
  | .visibleEditorsChange t _ => t
  | .windowStateChange t _ => t
  | .fileSave t _ _ => t
  | .activeTerminalChange t _ => t

def OldEvent.isTextChange : OldEvent → Bool
  | .textChange _ _ _ _ => true
  | _ => false

/-- The old tracker state: a bounded FIFO event history (`MAX_EVENTS = 50`). -/
structure TrackerState where
  events : List OldEvent
deriving DecidableEq, Repr

def TrackerState.init : TrackerState := ⟨[]⟩

/-- `InteractionTracker.addEvent`: push then evict the oldest past capacity. -/
def TrackerState.addEvent (st : TrackerState) (e : OldEvent) : TrackerState :=
  ⟨boundedAppend 50 st.events e⟩

/-- `InteractionTracker.getRecentEvents`: a snapshot copy of the buffer. -/
def TrackerState.getRecentEvents (st : TrackerState) : List OldEvent :=
  st.events

/-! ## Older polling analyzer: detectors and `analyze` -/

/-- Shortcut-string and id constants appearing in the sources. -/
def kSlash : String := "/"

def kSlashSlash : String := "//"

def containsNl (s : String) : Bool := s.data.any (fun ch => ch == '\n')

/-- `getPrevTextChange(events, startIndex)`: scan indices `startIndex … 0`
for the most recent textChange event. -/
def getPrevTextChange (events : List OldEvent) (startIndex : Int) : Option OldEvent :=
  if startIndex < 0 then none
  else ((events.take (startIndex.toNat + 1)).reverse).find? OldEvent.isTextChange

/-- Rule Ctrl+/ (`detectToggleLineComment`): two consecutive `'/'` insertions
whose line prefix trims to `"//"`. -/
def detectToggleLineComment (events : List OldEvent) (lastEvent : OldEvent) :
    Except Unit (Option Recommendation) :=
  match lastEvent with
  | .textChange _ [c] doc _ =>
    if c.text == kSlash then
      match getPrevTextChange events ((events.length : Int) - 2) with
      | some (.textChange _ [pc] _ _) =>
        if pc.text == kSlash then
          match doc.lineAt? c.rangeStartLine with
          | none => .error ()
          | some lineText =>
            let textBefore := jsTake lineText (c.rangeStartChar + 1)
            if jsTrim textBefore == kSlashSlash then
              .ok (some ⟨"toggleLineComment", "toggle line comment", "Ctrl+/"⟩)
            else .ok none
        else .ok none
      | _ => .ok none
    else .ok none
  | _ => .ok none

/-- The backward-scanning loop of `detectDeleteWordLeft`, applied to the
reversed history: a textChange that is a single 1-character deletion counts
and the scan continues; any other textChange breaks; events of other types
are passed over without breaking the run. -/
def deletionRunCount : List OldEvent → Nat
  | [] => 0
  | e :: rest =>
    match e with
    | .textChange _ [c] _ _ =>
      if c.text == "" && c.rangeLength == 1 then deletionRunCount rest + 1 else 0
    | .textChange _ _ _ _ => 0
    | _ => deletionRunCount rest

/-- Rule Ctrl+Backspace (`detectDeleteWordLeft`). -/
def detectDeleteWordLeft (events : List OldEvent) (lastEvent : OldEvent) :
    Option Recommendation :=
  match lastEvent with
  | .textChange _ [c] _ _ =>
    if c.text == "" then
      if 3 ≤ deletionRunCount events.reverse then
        some ⟨"deleteWordLeft", "delete word left", "Ctrl+Backspace"⟩
      else none
    else none
  | _ => none

/-- The affected-lines scan of `detectCopyLineDown`: some adjacent pair of
lines trims to the same non-empty text. -/
def adjacentDupPair : List String → Bool
  | a :: b :: rest =>
    (0 < (jsTrim a).length && jsTrim a == jsTrim b) || adjacentDupPair (b :: rest)
  | _ => false

/-- Rule Shift+Alt+Down (`detectCopyLineDown`). -/
def detectCopyLineDown (_events : List OldEvent) (lastEvent : OldEvent) :
    Option Recommendation :=
  match lastEvent with
  | .textChange _ [c] _ affectedLines =>
    if containsNl c.text then
      match affectedLines with
      | some lines =>
        if adjacentDupPair lines then
          some ⟨"copyLineDown", "copy line down", "Shift+Alt+Down"⟩
        else none
      | none => none
    else none
  | _ => none

/-- Rule Alt+Up/Down (`detectMoveLine`). -/
def detectMoveLine (events : List OldEvent) (lastEvent : OldEvent) :
    Option Recommendation :=
  match lastEvent with
  | .textChange _ [c] _ _ =>
    if containsNl c.text then
      match getPrevTextChange events ((events.length : Int) - 2) with
      | some (.textChange _ [pc] _ _) =>
        if pc.text == "" then
          let deletedLength := pc.rangeLength
          let insertedLength := c.text.length
          if ((deletedLength : Int) - (insertedLength : Int)).natAbs ≤ 2 ∧ 5 < deletedLength then
            some ⟨"moveLine", "move line", "Alt+Up/Down"⟩
          else none
        else none
      | _ => none
    else none
  | _ => none

/-- The backward scan of `detectNextFindMatch` over the events before the
newest: a prior non-empty selection with the same text (length > 1) at a
different range. -/
def scanSelections (text : String) (currentSel : OldSelection) :
    List OldEvent → Except Unit (Option Recommendation)
  | [] => .ok none
  | e :: rest =>
    match e with
    | .selectionChange _ [] _ => .error ()
    | .selectionChange _ (prevSel :: _) pdoc =>
      if !prevSel.isEmptySel then
        let prevText := pdoc.getText prevSel
        if text == prevText && 1 < text.length && !(currentSel == prevSel) then
          .ok (some ⟨"addSelectionToNextFindMatch", "select next occurrence", "Ctrl+D"⟩)
        else scanSelections text currentSel rest
      else scanSelections text currentSel rest
    | _ => scanSelections text currentSel rest

/-- Rule Ctrl+D (`detectNextFindMatch`). -/
def detectNextFindMatch (events : List OldEvent) (lastEvent : OldEvent) :
    Except Unit (Option Recommendation) :=
  match lastEvent with
  | .selectionChange _ [] _ => .error ()
  | .selectionChange _ (currentSel :: _) doc =>
    if !currentSel.isEmptySel then
      let text := doc.getText currentSel
      scanSelections text currentSel ((events.take (events.length - 1)).reverse)
    else .ok none
  | _ => .ok none

/-- Rule Ctrl+Tab (`detectTabSwitching`). -/
def detectTabSwitching (_events : List OldEvent) (lastEvent : OldEvent) :
    Option Recommendation :=
  match lastEvent with
  | .activeEditorChange _ _ => some ⟨"switchTabs", "switch tabs", "Ctrl+Tab"⟩
  | _ => none

/-- Rule Ctrl+\ (`detectSplitEditor`): editor count grew relative to the
most recent previous visibleEditorsChange event. -/
def detectSplitEditor (events : List OldEvent) (lastEvent : OldEvent) :
    Option Recommendation :=
  match lastEvent with
  | .visibleEditorsChange _ cnt =>
    match ((events.take (events.length - 1)).reverse).find?
        (fun e => match e with | .visibleEditorsChange _ _ => true | _ => false) with
    | some (.visibleEditorsChange _ prevCnt) =>
      if prevCnt < cnt then some ⟨"splitEditor", "split editor", "Ctrl+\\"⟩ else none
    | _ => none
  | _ => none

/-- Rule Ctrl+backtick (`detectToggleTerminal`). -/
def detectToggleTerminal (_events : List OldEvent) (lastEvent : OldEvent) :
    Option Recommendation :=
  match lastEvent with
  | .activeTerminalChange _ _ => some ⟨"toggleTerminal", "toggle terminal", "Ctrl+`"⟩
  | _ => none

/-- Rule Ctrl+S (`detectSave`). -/
def detectSave (_events : List OldEvent) (lastEvent : OldEvent) :
    Option Recommendation :=
  match lastEvent with
  | .fileSave _ _ _ => some ⟨"saveFile", "save file", "Ctrl+S"⟩
  | _ => none

/-- Mutable state of the older `Analyzer`. -/
structure Analyzer0State where
  lastAnalyzedTimestamp : Int
  lastScrollRecommendationTime : Int
deriving DecidableEq, Repr

def Analyzer0State.init : Analyzer0State := ⟨0, 0⟩

/-- Rule Ctrl+G (`detectScrolling`), gated by the 5-minute
`SCROLL_RECOMMENDATION_COOLDOWN` (300000 ms). -/
def detectScrolling (st : Analyzer0State) (now : Int) (lastEvent : OldEvent) :
    Analyzer0State × Option Recommendation :=
  match lastEvent with
  | .visibleRangeChange _ _ =>
    if 300000 < now - st.lastScrollRecommendationTime then
      ({ st with lastScrollRecommendationTime := now },
       some ⟨"smartNavigation", "jump to line, or PageUp/Down to scroll faster", "Ctrl+G"⟩)
    else (st, none)
  | _ => (st, none)

/-- The older `Analyzer.analyze`: dedup on the newest event's timestamp, then
run the detector chain with `||` short-circuiting.  `now` stands for the
`Date.now()` read inside `detectScrolling`. -/
def analyze (st : Analyzer0State) (now : Int) (events : List OldEvent) :
    Analyzer0State × Except Unit (Option Recommendation) :=
  match events.getLast? with
  | none => (st, .ok none)
  | some lastEvent =>
    if lastEvent.timestamp ≤ st.lastAnalyzedTimestamp then (st, .ok none)
    else
      let st := { st with lastAnalyzedTimestamp := lastEvent.timestamp }
      match detectToggleLineComment events lastEvent with
      | .error e => (st, .error e)
      | .ok (some r) => (st, .ok (some r))
      | .ok none =>
        match detectDeleteWordLeft events lastEvent with
        | some r => (st, .ok (some r))
        | none =>
          match detectCopyLineDown events lastEvent with
          | some r => (st, .ok (some r))
          | none =>
            match detectMoveLine events lastEvent with
            | some r => (st, .ok (some r))
            | none =>
              match detectNextFindMatch events lastEvent with
              | .error e => (st, .error e)
              | .ok (some r) => (st, .ok (some r))
              | .ok none =>
                match detectTabSwitching events lastEvent with
                | some r => (st, .ok (some r))
                | none =>
                  match detectSplitEditor events lastEvent with
                  | some r => (st, .ok (some r))
                  | none =>
                    match detectToggleTerminal events lastEvent with
                    | some r => (st, .ok (some r))
                    | none =>
                      match detectSave events lastEvent with
                      | some r => (st, .ok (some r))
                      | none =>
                        let sr := detectScrolling st now lastEvent
                        (sr.1, .ok sr.2)

/-! ## Newer event-driven analyzer: data model -/

/-- The 16 `InteractionType` kinds of the newer tracker. -/
inductive InteractionType where
  | activeEditorChange | textChange | selectionChange | fileSave | documentClose
  | activeTerminalChange | windowStateChange | commandExecution
  | panelVisibilityChange | intelliSenseTrigger | peekDefinitionTrigger
  | quickFixTrigger | referencesTrigger | debugStart | scrollChange | tipOfTheDay
deriving DecidableEq, Repr

/-- A text document: `lineAt(n).text` over `lines`, plus `languageId`. -/
structure Document where
  lines : List String
  languageId : String
deriving DecidableEq, Repr

def Document.lineCount (d : Document) : Nat := d.lines.length

def Document.lineAt? (d : Document) (n : Nat) : Option String := d.lines[n]?

/-- A text editor (only its `document` is consulted). -/
structure Editor where
  document : Document
deriving DecidableEq, Repr

/-- One `vscode.TextDocumentContentChangeEvent` for the newer analyzer. -/
structure ContentChange where
  text : String
  rangeStartLine : Nat
  rangeStartChar : Nat
  rangeLength : Nat
deriving DecidableEq, Repr

/-- A cursor position `(line, character)`. -/
abbrev Pos := Nat × Nat

def posLeB (a b : Pos) : Bool := a.1 < b.1 || (a.1 == b.1 && a.2 ≤ b.2)

/-- A `vscode.Selection` given by anchor and active positions; `start`/`end`
are the two in document order and the selection is empty iff they agree. -/
structure Selection where
  anchor : Pos
  active : Pos
deriving DecidableEq, Repr

def Selection.startPos (s : Selection) : Pos :=
  if posLeB s.anchor s.active then s.anchor else s.active

def Selection.endPos (s : Selection) : Pos :=
  if posLeB s.anchor s.active then s.active else s.anchor

def Selection.isEmptyB (s : Selection) : Bool := s.anchor == s.active

/-- The kind-specific context payload attached to an `InteractionEvent`;
each field models one property the filters read through `event.context?.x`
(`none` = the property is absent). -/
structure EventContext where
  changes : Option (List ContentChange) := none
  editor : Option Editor := none
  selections : Option (List Selection) := none
  document : Option Bool := none
  state : Option Bool := none
  terminal : Option Bool := none
  languageId : Option String := none
  fileName : Option String := none
deriving DecidableEq, Repr

/-- The newer tracker's `InteractionEvent`. -/
structure InteractionEvent where
  type : InteractionType
  timestamp : Int
  context : Option EventContext := none
deriving DecidableEq, Repr

def InteractionEvent.ctxChanges (ev : InteractionEvent) : Option (List ContentChange) :=
  ev.context.bind EventContext.changes

def InteractionEvent.ctxEditor (ev : InteractionEvent) : Option Editor :=
  ev.context.bind EventContext.editor

def InteractionEvent.ctxSelections (ev : InteractionEvent) : Option (List Selection) :=
  ev.context.bind EventContext.selections

def InteractionEvent.ctxDocument (ev : InteractionEvent) : Option Bool :=
  ev.context.bind EventContext.document

def InteractionEvent.ctxState (ev : InteractionEvent) : Option Bool :=
  ev.context.bind EventContext.state

def InteractionEvent.ctxTerminal (ev : InteractionEvent) : Option Bool :=
  ev.context.bind EventContext.terminal

def InteractionEvent.ctxLanguageId (ev : InteractionEvent) : Option String :=
  ev.context.bind EventContext.languageId

def InteractionEvent.ctxFileName (ev : InteractionEvent) : Option String :=
  ev.context.bind EventContext.fileName

/-- A catalog entry: key-combo label and action description.  The catalog
itself (`ShortcutsLoader`) is an external collaborator, modelled as the
lookup function `Env.catalog`. -/
structure Shortcut where
  shortcut : String
  action : String
deriving DecidableEq, Repr

/-- `getShortcutKey`: the session identity of a shortcut. -/
def getShortcutKey (s : Shortcut) : String := s.shortcut ++ ":" ++ s.action

/-- Direction tag of an aggregated edit run. -/
inductive AggKind where
  | add | delete
deriving DecidableEq, Repr

/-- `AggregatedEvent`: a coalesced run of same-line same-direction edits. -/
structure AggregatedEvent where
  eventType : AggKind
  text : String
  line : Nat
  count : Nat
  timestamp : Int
deriving DecidableEq, Repr

/-- Mutable state of the newer `Analyzer`. -/
structure AnalyzerState where
  lastRecommendationTime : Int
  cooldownInterval : Int
  sessionRecommendationLimit : Int
  shownShortcuts : List String
  recentEvents : List AggregatedEvent
  currentEvent : Option AggregatedEvent
  lastCtrlBackSpaceRecTime : Int
  lastCommentRecommendationTime : Int
  previousCursorPosition : Option Pos
  previousSelection : Option (Bool × Nat × Nat × Nat × Nat)
  hadSelection : Bool
  lastTextChangeTime : Int
deriving DecidableEq, Repr

/-- Fresh analyzer state as built by the constructor (configuration values
`cooldownInterval` and `sessionRecommendationLimit` are read once). -/
def AnalyzerState.init (cooldown limit : Int) : AnalyzerState where
  lastRecommendationTime := 0
  cooldownInterval := cooldown
  sessionRecommendationLimit := limit
  shownShortcuts := []
  recentEvents := []
  currentEvent := none
  lastCtrlBackSpaceRecTime := 0
  lastCommentRecommendationTime := 0
  previousCursorPosition := none
  previousSelection := none
  hadSelection := false
  lastTextChangeTime := 0

/-- JS `Set<string>.add`: append the key if it is not already a member. -/
def addKey (l : List String) (k : String) : List String :=
  if l.contains k then l else l ++ [k]

/-- `Analyzer.pushToQueue`: bounded append to the aggregate history queue. -/
def AnalyzerState.pushToQueue (st : AnalyzerState) (e : AggregatedEvent) : AnalyzerState :=
  { st with recentEvents := boundedAppend 50 st.recentEvents e }

/-- Ambient environment of one `analyzeInteraction` call: the clock, the
active editor, and the external collaborators (shortcut catalog, learned
store) plus the two `Math.random()` draws, abstracted per the spec's
interface boundary. -/
structure Env where
  now : Int
  activeTextEditor : Option Editor
  catalog : InteractionType → List Shortcut
  isLearned : String → String → Bool
  coin : Bool
  randFloor : Nat → Nat

/-! ## Newer analyzer: the `filterTextChange` pipeline -/

def kCtrlSlash : String := "Ctrl+/"

def kHash : String := "#"

def kHtmlOpen : String := "<!--"

def kSlashStar : String := "/*"

def kCtrlAltPlus : String := "Ctrl+Alt+"

def kAltClick : String := "Alt+Click"

def kCtrlD : String := "Ctrl+D"

def kCtrlF2 : String := "Ctrl+F2"

def kShiftAltPlus : String := "Shift+Alt+"

def kCtrlC : String := "Ctrl+C"

def kCtrlShiftK : String := "Ctrl+Shift+K"

def kCtrlX : String := "Ctrl+X"

def kCtrlBackspace : String := "Ctrl+Backspace"

def kFnLeft : String := "Fn+←"

def kFnRight : String := "Fn+→"

def kShiftAltRight : String := "Shift+Alt+→"

def kCtrlKV : String := "Ctrl+K V"

def kCtrlShiftV : String := "Ctrl+Shift+V"

def kCtrlUpDown : String := "Ctrl+↑ / Ctrl+↓"

def kCtrlBacktick : String := "Ctrl+`"

def kAltTab : String := "Alt+Tab"

def kMarkdown : String := "markdown"

def kDotMd : String := ".md"

def slashLangs : List String :=
  ["typescript", "javascript", "java", "c", "cpp", "csharp", "go", "rust", "jsonc"]

def hashLangs : List String :=
  ["python", "ruby", "perl", "yaml", "shellscript", "dockerfile"]

def htmlLangs : List String := ["html", "xml"]

def cssLangs : List String := ["css", "less", "scss"]

/-- `MAX_EVENT_TEXT_LENGTH`. -/
def maxEventTextLength : Nat := 100

/-- The fresh aggregate opened for a text change ("Start new event"). -/
def freshAggregate (now : Int) (change : ContentChange) : AggregatedEvent :=
  let isAddition := 0 < change.text.length
  { eventType := if isAddition then AggKind.add else AggKind.delete
    text := if isAddition then jsTake change.text maxEventTextLength else ""
    line := change.rangeStartLine
    count := if isAddition then change.text.length else change.rangeLength
    timestamp := now }

/-- Step 1 of `filterTextChange` ("Event Aggregation"): update
`lastTextChangeTime`, then either extend the current open aggregate (same
line, same direction) or push it to the queue and open a fresh one.
Returns the updated state together with the (now open) current aggregate. -/
def aggregateStep (st : AnalyzerState) (now : Int) (change : ContentChange) :
    AnalyzerState × AggregatedEvent :=
  let isAddition := 0 < change.text.length
  let eventType := if isAddition then AggKind.add else AggKind.delete
  let line := change.rangeStartLine
  let st := { st with lastTextChangeTime := now }
  match st.currentEvent with
  | some cur =>
    if cur.line = line ∧ cur.eventType = eventType then
      let newCount := cur.count + (if isAddition then change.text.length else change.rangeLength)
      let newText :=
        if isAddition ∧ cur.text.length < maxEventTextLength then
          cur.text ++ jsTake change.text (maxEventTextLength - cur.text.length)
        else cur.text
      let cur' := { cur with timestamp := now, count := newCount, text := newText }
      ({ st with currentEvent := some cur' }, cur')
    else
      let st := st.pushToQueue cur
      let cur' := freshAggregate now change
      ({ st with currentEvent := some cur' }, cur')
  | none =>
    let cur' := freshAggregate now change
    ({ st with currentEvent := some cur' }, cur')

/-- "Multi-Cursor Editing Detection" section of `filterTextChange`. -/
def multiCursorSection (recentEvents : List AggregatedEvent)
    (current : AggregatedEvent) (shortcuts : List Shortcut) : List Shortcut :=
  let currentTextTrimmed := jsTrim current.text
  if current.eventType = AggKind.add ∧ 3 < currentTextTrimmed.length then
    let matchList := recentEvents.filter (fun e =>
      e.eventType == AggKind.add && e.line != current.line && jsTrim e.text == currentTextTrimmed)
    if 0 < matchList.length then
      match matchList.find? (fun e => ((e.line : Int) - (current.line : Int)).natAbs == 1) with
      | some _ => shortcuts.filter (fun s => strContains s.shortcut kCtrlAltPlus)
      | none => shortcuts.filter (fun s =>
          [kAltClick, kCtrlD, kCtrlF2].any (fun k => strContains s.shortcut k))
    else []
  else []

def neighborOffsets : List Int := [-2, -1, 1, 2]

/-- "Line Duplication Detection" section of `filterTextChange` (additions):
the current line's trimmed text matches a neighbour within ±2 lines. -/
def lineDupSection (doc : Document) (rawLine : String)
    (current : AggregatedEvent) (shortcuts : List Shortcut) : List Shortcut :=
  if current.eventType = AggKind.add then
    let lineText := jsTrim rawLine
    if 3 < lineText.length ∧ 0 < current.count then
      if neighborOffsets.any (fun off =>
          let checkLine : Int := (current.line : Int) + off
          decide (0 ≤ checkLine) && decide (checkLine < (doc.lineCount : Int)) &&
            jsTrim ((doc.lineAt? checkLine.toNat).getD ("")) == lineText) then
        shortcuts.filter (fun s =>
          strContains s.shortcut kShiftAltPlus || strContains s.shortcut kCtrlC)
      else []
    else []
  else []

/-- Deletion section of `filterTextChange`: full-line delete vs word delete
(the latter gated by the 10-minute `lastCtrlBackSpaceRecTime` debounce).
Returns the new debounce timestamp and the pushed shortcuts. -/
def deleteSection (lastBack now : Int) (rawLine : String)
    (current : AggregatedEvent) (shortcuts : List Shortcut) : Int × List Shortcut :=
  if current.eventType = AggKind.delete then
    let isLineEmpty := (jsTrim rawLine).length = 0
    if 5 ≤ current.count then
      if isLineEmpty then
        (lastBack, shortcuts.filter (fun s =>
          strContains s.shortcut kCtrlShiftK || strContains s.shortcut kCtrlX))
      else if 600000 < now - lastBack then
        let deletionShortcuts := shortcuts.filter (fun s => strContains s.shortcut kCtrlBackspace)
        if deletionShortcuts ≠ [] then (now, deletionShortcuts) else (lastBack, [])
      else (lastBack, [])
    else (lastBack, [])
  else (lastBack, [])

/-- The "Simple language mapping" to a line-comment token. -/
def commentCharFor (lang : String) : String :=
  if slashLangs.contains lang then kSlashSlash
  else if hashLangs.contains lang then kHash
  else if htmlLangs.contains lang then kHtmlOpen
  else if cssLangs.contains lang then kSlashStar
  else ""

/-- "Comment Detection" section of `filterTextChange`, gated by the
10-minute `lastCommentRecommendationTime` debounce.  Returns the new
debounce timestamp and the pushed shortcuts. -/
def commentSection (lastComment now : Int) (lang : String) (rawLine : String)
    (current : AggregatedEvent) (shortcuts : List Shortcut) : Int × List Shortcut :=
  if current.eventType = AggKind.add ∨ current.eventType = AggKind.delete then
    let commentChar := commentCharFor lang
    if commentChar ≠ "" then
      let lineText := jsTrim rawLine
      let isCommentAction :=
        (current.eventType = AggKind.add ∧ jsStartsWith lineText commentChar = true) ∨
        (current.eventType = AggKind.delete ∧ jsStartsWith lineText commentChar = false ∧
          current.count ≤ commentChar.length + 1)
      if isCommentAction then
        if 600000 < now - lastComment then
          (now, shortcuts.filter (fun s => s.shortcut == kCtrlSlash))
        else (lastComment, [])
      else (lastComment, [])
    else (lastComment, [])
  else (lastComment, [])

/-- `Analyzer.filterTextChange`: guard on the change list, aggregate, then
run the text-edit heuristics.  `vscode.window.activeTextEditor` and
`Date.now()` come from `env`; `lineAt` on an out-of-range line is the one
throwing operation (`Except.error`), and state mutated before the throw is
kept. -/
def filterTextChange (st : AnalyzerState) (env : Env) (shortcuts : List Shortcut)
    (ev : InteractionEvent) : AnalyzerState × Except Unit (List Shortcut) :=
  match ev.ctxChanges with
  | none => (st, .ok [])
  | some [] => (st, .ok [])
  | some (change :: _) =>
    let a := aggregateStep st env.now change
    let st1 := a.1
    let current := a.2
    let detected1 := multiCursorSection st1.recentEvents current shortcuts
    match env.activeTextEditor with
    | none => (st1, .ok detected1)
    | some editor =>
      match editor.document.lineAt? current.line with
      | none => (st1, .error ())
      | some rawLine =>
        let detected2 := detected1 ++ lineDupSection editor.document rawLine current shortcuts
        let d := deleteSection st1.lastCtrlBackSpaceRecTime env.now rawLine current shortcuts
        let c := commentSection st1.lastCommentRecommendationTime env.now
          editor.document.languageId rawLine current shortcuts
        ({ st1 with lastCtrlBackSpaceRecTime := d.1, lastCommentRecommendationTime := c.1 },
         .ok (detected2 ++ d.2 ++ c.2))

/-! ## Newer analyzer: `filterSelectionChange` and the remaining filters -/

/-- "Cursor Movement to Line Start/End" section of `filterSelectionChange`:
given the previous empty-selection cursor slot and the 500 ms typing buffer,
returns the new slot value and the pushed shortcuts. -/
def cursorStartEndSection (prevCursor : Option Pos) (lastTextChangeTime now : Int)
    (sel : Selection) (lineLength fnws : Nat) (shortcuts : List Shortcut) :
    Option Pos × List Shortcut :=
  let currentLine := sel.active.1
  let currentColumn := sel.active.2
  if sel.isEmptyB then
    let isTyping := now - lastTextChangeTime < 500
    let pushes :=
      match prevCursor with
      | some (pl, prevColumn) =>
        if ¬ isTyping ∧ pl = currentLine then
          let isPrevMiddle := 1 ≤ prevColumn ∧ prevColumn ≤ lineLength - 1
          (if (currentColumn = 0 ∨ currentColumn = fnws) ∧ isPrevMiddle ∧ fnws < prevColumn
           then shortcuts.filter (fun s => strContains s.shortcut kFnLeft) else []) ++
          (if currentColumn = lineLength ∧ isPrevMiddle
           then shortcuts.filter (fun s => strContains s.shortcut kFnRight) else [])
        else []
      | none => []
    (some (currentLine, currentColumn), pushes)
  else (none, [])

/-- "Full Line Selection" section of `filterSelectionChange`. -/
def fullLineSection (prevSel : Option (Bool × Nat × Nat × Nat × Nat))
    (sel : Selection) (lineText : String) (lineLength fnws : Nat)
    (shortcuts : List Shortcut) : List Shortcut :=
  let isAllChars := (sel.startPos).2 = 0 ∧ (sel.endPos).2 = lineLength
  let lastNonWhitespace := (jsTrimEnd lineText).length
  let isAllNonWhitespace := (sel.startPos).2 ≤ fnws ∧ lastNonWhitespace ≤ (sel.endPos).2 ∧
    ¬ ((sel.startPos).2 = (sel.endPos).2)
  let isFullLineSelected := (isAllChars ∨ isAllNonWhitespace) ∧ (sel.startPos).1 = (sel.endPos).1
  if isFullLineSelected then
    match prevSel with
    | some (pEmpty, psl, psc, _, pec) =>
      if pEmpty = false ∧ psl = (sel.startPos).1 ∧ (fnws < psc ∨ pec < lastNonWhitespace)
      then shortcuts.filter (fun s => strContains s.shortcut kShiftAltRight) else []
    | none => []
  else []

/-- `Analyzer.filterSelectionChange`: guard on `editor`/`selections`, then
cursor-movement and full-line-selection heuristics plus the snapshot-slot
updates (`hadSelection`, `previousCursorPosition`, `previousSelection`).
Indexing an empty `selections` array or an out-of-range `lineAt` throws. -/
def filterSelectionChange (st : AnalyzerState) (env : Env) (shortcuts : List Shortcut)
    (ev : InteractionEvent) : AnalyzerState × Except Unit (List Shortcut) :=
  match ev.ctxEditor, ev.ctxSelections with
  | some editor, some sels =>
    (match sels.head? with
     | none => (st, .error ())
     | some sel =>
       match editor.document.lineAt? sel.active.1 with
       | none => (st, .error ())
       | some lineText =>
         let lineLength := lineText.length
         let firstNonWhitespace := firstNonWhitespaceIndex lineText
         let st1 := { st with hadSelection := !sel.isEmptyB }
         let cm := cursorStartEndSection st1.previousCursorPosition st1.lastTextChangeTime
           env.now sel lineLength firstNonWhitespace shortcuts
         let st2 := { st1 with previousCursorPosition := cm.1 }
         let d2 := fullLineSection st2.previousSelection sel lineText lineLength
           firstNonWhitespace shortcuts
         let snap := (sel.isEmptyB, (sel.startPos).1, (sel.startPos).2, (sel.endPos).1, (sel.endPos).2)
         let st3 := { st2 with previousSelection := some snap }
         (st3, .ok (cm.2 ++ d2)))
  | _, _ => (st, .ok [])

/-- `filterActiveEditorChange`: markdown files keep only the preview
shortcuts, other files drop them. -/
def filterActiveEditorChange (shortcuts : List Shortcut) (ev : InteractionEvent) :
    List Shortcut :=
  match ev.ctxEditor with
  | none => []
  | some _ =>
    let isMarkdown := ev.ctxLanguageId == some kMarkdown ||
      (match ev.ctxFileName with
       | some f => jsEndsWith f kDotMd
       | none => false)
    if isMarkdown then
      shortcuts.filter (fun s =>
        strContains s.shortcut kCtrlKV || strContains s.shortcut kCtrlShiftV)
    else
      shortcuts.filter (fun s =>
        !strContains s.shortcut kCtrlKV && !strContains s.shortcut kCtrlShiftV)

/-- `filterActiveTerminalChange`. -/
def filterActiveTerminalChange (shortcuts : List Shortcut) (ev : InteractionEvent) :
    List Shortcut :=
  match ev.ctxTerminal with
  | none => shortcuts.filter (fun s =>
      strContains s.shortcut kCtrlUpDown || strContains s.shortcut kCtrlBacktick)
  | some _ => shortcuts

/-- `Analyzer.filterByContext`: dispatch on the event kind.  Only the
textChange and selectionChange filters are stateful or can throw. -/
def filterByContext (st : AnalyzerState) (env : Env) (shortcuts : List Shortcut)
    (ev : InteractionEvent) : AnalyzerState × Except Unit (List Shortcut) :=
  match ev.type with
  | .activeEditorChange => (st, .ok (filterActiveEditorChange shortcuts ev))
  | .activeTerminalChange => (st, .ok (filterActiveTerminalChange shortcuts ev))
  | .commandExecution => (st, .ok shortcuts)
  | .documentClose => (st, .ok (if (ev.ctxDocument).isSome then shortcuts else []))
  | .fileSave => (st, .ok (if (ev.ctxDocument).isSome then shortcuts else []))
  | .intelliSenseTrigger => (st, .ok shortcuts)
  | .panelVisibilityChange => (st, .ok shortcuts)
  | .peekDefinitionTrigger => (st, .ok shortcuts)
  | .quickFixTrigger => (st, .ok shortcuts)
  | .referencesTrigger => (st, .ok shortcuts)
  | .selectionChange => filterSelectionChange st env shortcuts ev
  | .textChange => filterTextChange st env shortcuts ev
  | .windowStateChange => (st, .ok (if (ev.ctxState).isSome then shortcuts else []))
  | .debugStart => (st, .ok shortcuts)
  | .scrollChange => (st, .ok shortcuts)
  | .tipOfTheDay => (st, .ok shortcuts)

/-- `Analyzer.updateStateOnly`: run the stateful filters with an empty
shortcut list purely for their state updates. -/
def updateStateOnly (st : AnalyzerState) (env : Env) (ev : InteractionEvent) :
    AnalyzerState × Except Unit Unit :=
  if ev.type = InteractionType.textChange then
    let r := filterTextChange st env [] ev
    (r.1, r.2.map (fun _ => ()))
  else if ev.type = InteractionType.selectionChange then
    let r := filterSelectionChange st env [] ev
    (r.1, r.2.map (fun _ => ()))
  else (st, .ok ())

/-- `selectRandomShortcut`: `shortcuts[Math.floor(Math.random() * length)]`,
with the random draw abstracted as `env.randFloor`; an out-of-range index is
JS `undefined`, i.e. `none`. -/
def selectRandomShortcut (env : Env) (shortcuts : List Shortcut) : Option Shortcut :=
  shortcuts[env.randFloor shortcuts.length]?

def debugPriorityOrder : List String := ["F5", "Shift+F5", "F9", "F10"]

/-- The `debugStart` priority loop of `selectBestShortcut`: first key of the
priority list present in the shortcut list wins. -/
def findByPriority (keys : List String) (shortcuts : List Shortcut) : Option Shortcut :=
  match keys with
  | [] => none
  | k :: ks =>
    match shortcuts.find? (fun s => s.shortcut == k) with
    | some s => some s
    | none => findByPriority ks shortcuts

/-- `selectBestShortcut` (returns `none` where JS would yield `undefined`).
`env.coin` stands for `Math.random() < 0.65`. -/
def selectBestShortcut (env : Env) (t : InteractionType) (shortcuts : List Shortcut) :
    Option Shortcut :=
  if t = InteractionType.textChange ∨ t = InteractionType.selectionChange then
    shortcuts.head?
  else if t = InteractionType.tipOfTheDay ∧ 0 < shortcuts.length then
    shortcuts.head?
  else if t = InteractionType.activeEditorChange ∧ 0 < shortcuts.length then
    if env.coin then shortcuts.head? else selectRandomShortcut env shortcuts
  else
    match (if t = InteractionType.windowStateChange then
        shortcuts.find? (fun s => s.shortcut == kAltTab) else none) with
    | some s => some s
    | none =>
      match (if t = InteractionType.activeTerminalChange then
          (match shortcuts.find? (fun s => s.shortcut == kCtrlBacktick) with
           | some s => some s
           | none => shortcuts.find? (fun s => s.shortcut == kCtrlUpDown)) else none) with
      | some s => some s
      | none =>
        match (if t = InteractionType.debugStart then
            findByPriority debugPriorityOrder shortcuts
          else none) with
        | some s => some s
        | none => selectRandomShortcut env shortcuts

/-- Steps 4–7 of `analyzeInteraction` on the context-filtered list: the
learned filter, the session cap, the selection, and the commit (record the
recommendation time and the shown key) before emitting to presentation. -/
def arbitrate (st1 : AnalyzerState) (env : Env) (ev : InteractionEvent)
    (contextFilteredShortcuts : List Shortcut) :
    AnalyzerState × Except Unit (Option Shortcut) :=
  if contextFilteredShortcuts.length = 0 then
    let u := updateStateOnly st1 env ev
    (u.1, u.2.map (fun _ => none))
  else
    let unlearnedShortcuts := contextFilteredShortcuts.filter
      (fun s => !(env.isLearned s.shortcut s.action))
    if unlearnedShortcuts.length = 0 then
      let u := updateStateOnly st1 env ev
      (u.1, u.2.map (fun _ => none))
    else
      let isSessionLimitReached :=
        st1.sessionRecommendationLimit ≤ (st1.shownShortcuts.length : Int)
      let candidates :=
        if isSessionLimitReached then
          unlearnedShortcuts.filter (fun s => st1.shownShortcuts.contains (getShortcutKey s))
        else unlearnedShortcuts
      if candidates.length = 0 then
        let u := updateStateOnly st1 env ev
        (u.1, u.2.map (fun _ => none))
      else
        match selectBestShortcut env ev.type candidates with
        | none => (st1, .error ())
        | some selectedShortcut =>
          let shown := addKey st1.shownShortcuts (getShortcutKey selectedShortcut)
          ({ st1 with lastRecommendationTime := env.now, shownShortcuts := shown },
           .ok (some selectedShortcut))

/-- `Analyzer.analyzeInteraction`: cooldown gate, catalog lookup, context
filter, then `arbitrate`. -/
def analyzeInteraction (st : AnalyzerState) (env : Env) (ev : InteractionEvent) :
    AnalyzerState × Except Unit (Option Shortcut) :=
  if ev.type ≠ InteractionType.tipOfTheDay ∧
      env.now - st.lastRecommendationTime < st.cooldownInterval then
    let u := updateStateOnly st env ev
    (u.1, u.2.map (fun _ => none))
  else
    let matchingShortcuts := env.catalog ev.type
    if matchingShortcuts.length = 0 then
      let u := updateStateOnly st env ev
      (u.1, u.2.map (fun _ => none))
    else
      let fc := filterByContext st env matchingShortcuts ev
      match fc.2 with
      | .error e => (fc.1, .error e)
      | .ok contextFilteredShortcuts => arbitrate fc.1 env ev contextFilteredShortcuts

/-- Outcome of the asynchronous presentation round trip. -/
inductive PresentationOutcome where
  | gotIt | okDismiss | failed
deriving DecidableEq, Repr

/-- Modelled from the spec: `markAsLearned(label, action)` of the external
learned-shortcuts collaborator (`LearnedShortcutsManager`, not under src/) —
idempotent insertion of the (label, action) identity into the learned set. -/
def markLearned (isLearned : String → String → Bool) (s : Shortcut) :
    String → String → Bool :=
  fun a b => (a == s.shortcut && b == s.action) || isLearned a b

/-- One full event-processing step including `showRecommendation`: the
analyzer state is the one already committed by `analyzeInteraction`; the
presentation outcome only decides whether the learned store grows. -/
def analyzeAndPresent (st : AnalyzerState) (env : Env) (ev : InteractionEvent)
    (outcome : PresentationOutcome) :
    AnalyzerState × Except Unit (Option Shortcut) × (String → String → Bool) :=
  let r := analyzeInteraction st env ev
  match r.2, outcome with
  | .ok (some s), .gotIt => (r.1, r.2, markLearned env.isLearned s)
  | _, _ => (r.1, r.2, env.isLearned)

/-- Sequential processing of a list of events (each with its ambient
environment), collecting the per-call results. -/
def runAnalyzer (st : AnalyzerState) :
    List (Env × InteractionEvent) → AnalyzerState × List (Except Unit (Option Shortcut))
  | [] => (st, [])
  | (env, ev) :: rest =>
    let r := analyzeInteraction st env ev
    let rec' := runAnalyzer r.1 rest
    (rec'.1, r.2 :: rec'.2)

/-- `StorageService.isLearned` (the persisted learned set is a string
list under the `shortcuts-helper.learned` key). -/
def StorageService.isLearned (learned : List String) (shortcutId : String) : Bool :=
  learned.contains shortcutId

/-- `StorageService.markAsLearned`: append if absent. -/
def StorageService.markAsLearned (learned : List String) (shortcutId : String) :
    List String :=
  if learned.contains shortcutId then learned else learned ++ [shortcutId]

/-! ## Claim C4: buffer bound -/

lemma boundedAppend_foldl (cap : Nat) (es : List α) :
    es.foldl (boundedAppend cap) [] = es.drop (es.length - cap) := by
  induction es using List.reverseRecOn with
  | nil => simp
  | append_singleton es e ih =>
    rw [List.foldl_append, ih]
    simp only [List.foldl_cons, List.foldl_nil, boundedAppend, List.length_append,
      List.length_singleton, List.length_drop]
    rcases Nat.lt_or_ge es.length cap with hlt | hge
    · rw [if_neg (by omega)]
      rw [show es.length - cap = 0 by omega, show es.length + 1 - cap = 0 by omega]
      simp
    · rcases Nat.eq_zero_or_pos cap with hc | hc
      · subst hc
        rw [if_pos (by omega)]
        rw [show es.length - 0 = es.length by omega, List.drop_length]
        simp only [List.nil_append, List.tail_cons]
        rw [List.drop_eq_nil_of_le (by simp)]
      · rw [if_pos (by rw [Nat.sub_sub_self hge]; omega)]
        have hne : es.drop (es.length - cap) ≠ [] := by
          intro h
          have hl := List.length_drop (es.length - cap) es
          rw [h] at hl
          simp at hl
          omega
        rw [List.tail_append_of_ne_nil hne, List.tail_drop]
        rw [List.drop_append_of_le_length (by omega)]
        rw [show es.length - cap + 1 = es.length + 1 - cap by omega]

lemma trackerFold_events (es : List OldEvent) (buf : List OldEvent) :
    (es.foldl TrackerState.addEvent ⟨buf⟩).events = es.foldl (boundedAppend 50) buf := by
  induction es generalizing buf with
  | nil => rfl
  | cons e rest ih => simpa [TrackerState.addEvent] using ih (boundedAppend 50 buf e)

lemma queueFold_recentEvents (aggs : List AggregatedEvent) (st : AnalyzerState) :
    (aggs.foldl AnalyzerState.pushToQueue st).recentEvents =
      aggs.foldl (boundedAppend 50) st.recentEvents := by
  induction aggs generalizing st with
  | nil => rfl
  | cons a rest ih => simpa [AnalyzerState.pushToQueue] using ih _

/-- C4: for every sequence of more than 50 appended events, the tracker's
history buffer — and likewise the analyzer's aggregate history queue —
holds exactly the most recent 50 events in insertion order, and the
`getRecentEvents` snapshot has size exactly the capacity. -/
theorem buffer_bound (es : List OldEvent) (aggs : List AggregatedEvent)
    (st : AnalyzerState) (hes : 50 < es.length) (haggs : 50 < aggs.length)
    (hst : st.recentEvents = []) :
    ((es.foldl TrackerState.addEvent TrackerState.init).getRecentEvents.length = 50 ∧
      (es.foldl TrackerState.addEvent TrackerState.init).getRecentEvents =
        es.drop (es.length - 50)) ∧
    ((aggs.foldl AnalyzerState.pushToQueue st).recentEvents.length = 50 ∧
      (aggs.foldl AnalyzerState.pushToQueue st).recentEvents =
        aggs.drop (aggs.length - 50)) := by
  have h1 : (es.foldl TrackerState.addEvent TrackerState.init).getRecentEvents =
      es.drop (es.length - 50) := by
    rw [show TrackerState.init = (⟨[]⟩ : TrackerState) from rfl]
    rw [show ∀ t : TrackerState, t.getRecentEvents = t.events from fun _ => rfl]
    rw [trackerFold_events, boundedAppend_foldl]
  have h2 : (aggs.foldl AnalyzerState.pushToQueue st).recentEvents =
      aggs.drop (aggs.length - 50) := by
    rw [queueFold_recentEvents, hst, boundedAppend_foldl]
  refine ⟨⟨?_, h1⟩, ⟨?_, h2⟩⟩
  · rw [h1, List.length_drop]; omega
  · rw [h2, List.length_drop]; omega

def c4Events : List OldEvent :=
  (List.range 51).map (fun n => OldEvent.fileSave (n : Int) "f" "typescript")

def c4Aggs : List AggregatedEvent :=
  (List.range 51).map (fun n => ⟨AggKind.add, "", 0, 0, (n : Int)⟩)

/-- Witness for C4 at 51 concrete appends. -/
theorem buffer_bound_witness :
    ((c4Events.foldl TrackerState.addEvent TrackerState.init).getRecentEvents.length = 50 ∧
      (c4Events.foldl TrackerState.addEvent TrackerState.init).getRecentEvents =
        c4Events.drop (c4Events.length - 50)) ∧
    ((c4Aggs.foldl AnalyzerState.pushToQueue (AnalyzerState.init 300000 3)).recentEvents.length = 50 ∧
      (c4Aggs.foldl AnalyzerState.pushToQueue (AnalyzerState.init 300000 3)).recentEvents =
        c4Aggs.drop (c4Aggs.length - 50)) :=
  buffer_bound c4Events c4Aggs (AnalyzerState.init 300000 3) (by decide) (by decide) (by decide)

/-! ## Claim C6: delete-word-left detector -/

/-- A textChange event that is a single 1-character deletion. -/
def isSingleCharDeletion (e : OldEvent) : Bool :=
  match e with
  | .textChange _ [c] _ _ => c.text == "" && c.rangeLength == 1
  | _ => false

lemma deletionRunCount_eq_takeWhile (l : List OldEvent) :
    deletionRunCount l =
      ((l.filter OldEvent.isTextChange).takeWhile isSingleCharDeletion).length := by
  induction l with
  | nil => rfl
  | cons e rest ih =>
    cases e with
    | textChange t cs d a =>
      rcases cs with _ | ⟨c, _ | ⟨c2, cs'⟩⟩
      · simp [deletionRunCount, OldEvent.isTextChange, isSingleCharDeletion,
          List.filter, List.takeWhile]
      · by_cases h : (c.text == "" && c.rangeLength == 1) = true
        · simp [deletionRunCount, OldEvent.isTextChange, isSingleCharDeletion,
            List.filter, List.takeWhile, h, ih]
        · simp [deletionRunCount, OldEvent.isTextChange, isSingleCharDeletion,
            List.filter, List.takeWhile, h]
      · simp [deletionRunCount, OldEvent.isTextChange, isSingleCharDeletion,
          List.filter, List.takeWhile]
    | selectionChange t sels d =>
      simpa [deletionRunCount, OldEvent.isTextChange, List.filter] using ih
    | visibleRangeChange t f =>
      simpa [deletionRunCount, OldEvent.isTextChange, List.filter] using ih
    | activeEditorChange t f =>
      simpa [deletionRunCount, OldEvent.isTextChange, List.filter] using ih
    | visibleEditorsChange t c =>
      simpa [deletionRunCount, OldEvent.isTextChange, List.filter] using ih
    | windowStateChange t f =>
      simpa [deletionRunCount, OldEvent.isTextChange, List.filter] using ih
    | fileSave t f g =>
      simpa [deletionRunCount, OldEvent.isTextChange, List.filter] using ih
    | activeTerminalChange t n =>
      simpa [deletionRunCount, OldEvent.isTextChange, List.filter] using ih

/-- C6 (amended): the delete-word-left detector fires exactly when the newest
event is a single empty-text change and the subsequence of textChange events
of the history, scanned backward from the newest, starts with at least 3
single-character deletions — events of other types are passed over without
breaking the run. -/
theorem delete_word_left_run (events : List OldEvent) (lastEvent : OldEvent) :
    detectDeleteWordLeft events lastEvent =
        some ⟨"deleteWordLeft", "delete word left", "Ctrl+Backspace"⟩ ↔
      (∃ t c d a, lastEvent = OldEvent.textChange t [c] d a ∧ c.text = "" ∧
        3 ≤ (((events.filter OldEvent.isTextChange).reverse.takeWhile
          isSingleCharDeletion).length)) := by
  constructor
  · intro h
    cases lastEvent with
    | textChange t cs d a =>
      rcases cs with _ | ⟨c, _ | ⟨c2, cs'⟩⟩
      · simp [detectDeleteWordLeft] at h
      · refine ⟨t, c, d, a, rfl, ?_, ?_⟩
        · by_cases hc : c.text == ""
          · exact eq_of_beq hc
          · simp [detectDeleteWordLeft, hc] at h
        · by_cases hc : (c.text == "") = true
          · rw [← List.filter_reverse, ← deletionRunCount_eq_takeWhile]
            simp only [detectDeleteWordLeft, hc, if_true] at h
            by_cases hr : 3 ≤ deletionRunCount events.reverse
            · exact hr
            · simp [hr] at h
          · simp [detectDeleteWordLeft, hc] at h
      · simp [detectDeleteWordLeft] at h
    | selectionChange t sels d => simp [detectDeleteWordLeft] at h
    | visibleRangeChange t f => simp [detectDeleteWordLeft] at h
    | activeEditorChange t f => simp [detectDeleteWordLeft] at h
    | visibleEditorsChange t c => simp [detectDeleteWordLeft] at h
    | windowStateChange t f => simp [detectDeleteWordLeft] at h
    | fileSave t f g => simp [detectDeleteWordLeft] at h
    | activeTerminalChange t n => simp [detectDeleteWordLeft] at h
  · rintro ⟨t, c, d, a, rfl, htext, hrun⟩
    rw [← List.filter_reverse, ← deletionRunCount_eq_takeWhile] at hrun
    simp [detectDeleteWordLeft, htext, hrun]

def c6Doc : OldDocument := ⟨["x"]⟩

def c6Del (t : Int) : OldEvent := .textChange t [⟨"", 1, 0, 0⟩] c6Doc (some [])

def c6Sel (t : Int) : OldEvent := .selectionChange t [⟨0, 0, 0, 0⟩] c6Doc

def c6Events : List OldEvent := [c6Del 1, c6Del 2, c6Sel 3, c6Del 4]

/-- C6 counterexample: with a selectionChange interleaved between the
deletions, the raw history does not end in 3 consecutive single-character
deletions (the maximal deletion suffix has length 1), yet the detector
fires, because the scan skips non-textChange events instead of letting them
break the run. -/
theorem delete_word_left_counterexample :
    detectDeleteWordLeft c6Events (c6Del 4) =
        some ⟨"deleteWordLeft", "delete word left", "Ctrl+Backspace"⟩ ∧
      (c6Events.reverse.takeWhile isSingleCharDeletion).length < 3 := by
  decide

def c6WitnessEvents : List OldEvent := [c6Del 1, c6Del 2, c6Del 3]

/-- Witness for the amended C6 characterization: three consecutive
single-character deletions trigger on the third. -/
theorem delete_word_left_run_witness :
    detectDeleteWordLeft c6WitnessEvents (c6Del 3) =
      some ⟨"deleteWordLeft", "delete word left", "Ctrl+Backspace"⟩ :=
  (delete_word_left_run c6WitnessEvents (c6Del 3)).mpr
    ⟨3, ⟨"", 1, 0, 0⟩, c6Doc, some [], rfl, rfl, by decide⟩

/-! ## Claim C10: polling-analyzer deduplication -/

lemma detectScrolling_fst_last (st : Analyzer0State) (now : Int) (e : OldEvent) :
    (detectScrolling st now e).1.lastAnalyzedTimestamp = st.lastAnalyzedTimestamp := by
  cases e
  all_goals simp only [detectScrolling]
  all_goals (try split)
  all_goals rfl

lemma analyze_fst_last (st : Analyzer0State) (now : Int) (es : List OldEvent)
    (e : OldEvent) (h : es.getLast? = some e) :
    e.timestamp ≤ ((analyze st now es).1).lastAnalyzedTimestamp := by
  unfold analyze
  rw [h]
  split
  · rename_i heq
    simp at heq
  · rename_i lastEvent heq
    injection heq with heq'
    subst heq'
    split
    · rename_i hle
      exact hle
    · repeat' split
      all_goals simp_all [detectScrolling_fst_last]

lemma analyze_stale (st : Analyzer0State) (now : Int) (es : List OldEvent)
    (e : OldEvent) (h : es.getLast? = some e)
    (hle : e.timestamp ≤ st.lastAnalyzedTimestamp) :
    analyze st now es = (st, .ok none) := by
  unfold analyze
  rw [h]
  split
  · rename_i heq
    simp at heq
  · rename_i lastEvent heq
    injection heq with heq'
    subst heq'
    rw [if_pos hle]

/-- C10: `analyze` is deduplicating — it returns no recommendation on an
empty snapshot, and a second call whose newest event is not strictly newer
than the previous call's newest event returns no recommendation (the guard
`lastEvent.timestamp <= lastAnalyzedTimestamp`), so the 1-second polling
loop yields at most one recommendation per distinct newest event. -/
theorem analyze_dedup :
    (∀ (st : Analyzer0State) (now : Int), analyze st now [] = (st, .ok none)) ∧
    (∀ (st : Analyzer0State) (now₁ now₂ : Int) (es₁ es₂ : List OldEvent)
        (e₁ e₂ : OldEvent),
      es₁.getLast? = some e₁ → es₂.getLast? = some e₂ →
      e₂.timestamp ≤ e₁.timestamp →
      analyze (analyze st now₁ es₁).1 now₂ es₂ = ((analyze st now₁ es₁).1, .ok none)) := by
  constructor
  · intro st now
    rfl
  · intro st now₁ now₂ es₁ es₂ e₁ e₂ h₁ h₂ hle
    exact analyze_stale _ now₂ es₂ e₂ h₂ (le_trans hle (analyze_fst_last st now₁ es₁ e₁ h₁))

def c10e1 : OldEvent := .fileSave 5 "a" "typescript"

def c10e2 : OldEvent := .fileSave 4 "a" "typescript"

/-- Witness for C10: a stale snapshot after a processed one yields nothing. -/
theorem analyze_dedup_witness :
    analyze (analyze Analyzer0State.init 100 [c10e1]).1 200 [c10e2] =
      ((analyze Analyzer0State.init 100 [c10e1]).1, .ok none) :=
  analyze_dedup.2 Analyzer0State.init 100 200 [c10e1] [c10e2] c10e1 c10e2 rfl rfl (by decide)

/-! ## Preservation lemmas: the context filters never touch the arbitration
fields (cooldown, session limit, last-recommendation time, shown set) -/

def ArbFieldsEq (a b : AnalyzerState) : Prop :=
  a.cooldownInterval = b.cooldownInterval ∧
  a.sessionRecommendationLimit = b.sessionRecommendationLimit ∧
  a.lastRecommendationTime = b.lastRecommendationTime ∧
  a.shownShortcuts = b.shownShortcuts

lemma arbFieldsEq_refl (a : AnalyzerState) : ArbFieldsEq a a := ⟨rfl, rfl, rfl, rfl⟩

lemma aggregateStep_arb (st : AnalyzerState) (now : Int) (change : ContentChange) :
    ArbFieldsEq (aggregateStep st now change).1 st := by
  unfold aggregateStep ArbFieldsEq
  rcases hcur : st.currentEvent with _ | cur
  · simp [hcur]
  · simp only [hcur]
    repeat' split
    all_goals simp [AnalyzerState.pushToQueue]

lemma filterTextChange_arb (st : AnalyzerState) (env : Env) (shortcuts : List Shortcut)
    (ev : InteractionEvent) : ArbFieldsEq (filterTextChange st env shortcuts ev).1 st := by
  unfold filterTextChange
  rcases hc : ev.ctxChanges with _ | ⟨_ | ⟨change, rest⟩⟩
  · simp only [hc]
    exact arbFieldsEq_refl st
  · simp only [hc]
    exact arbFieldsEq_refl st
  · simp only [hc]
    obtain ⟨h1, h2, h3, h4⟩ := aggregateStep_arb st env.now change
    cases henv : env.activeTextEditor with
    | none =>
      simp only [henv]
      exact ⟨h1, h2, h3, h4⟩
    | some editor =>
      simp only [henv]
      cases hline : editor.document.lineAt? (aggregateStep st env.now change).2.line with
      | none =>
        simp only [hline]
        exact ⟨h1, h2, h3, h4⟩
      | some rawLine =>
        simp only [hline]
        exact ⟨h1, h2, h3, h4⟩

lemma filterSelectionChange_arb (st : AnalyzerState) (env : Env)
    (shortcuts : List Shortcut) (ev : InteractionEvent) :
    ArbFieldsEq (filterSelectionChange st env shortcuts ev).1 st := by
  unfold filterSelectionChange
  rcases he : ev.ctxEditor with _ | editor
  · rcases hs : ev.ctxSelections with _ | sels
    · simp only [he, hs]
      exact arbFieldsEq_refl st
    · simp only [he, hs]
      exact arbFieldsEq_refl st
  · rcases hs : ev.ctxSelections with _ | sels
    · simp only [he, hs]
      exact arbFieldsEq_refl st
    · simp only [he, hs]
      rcases hh : sels.head? with _ | sel
      · simp only [hh]
        exact arbFieldsEq_refl st
      · simp only [hh]
        rcases hl : editor.document.lineAt? sel.active.1 with _ | lineText
        · simp only [hl]
          exact arbFieldsEq_refl st
        · simp only [hl]
          exact ⟨rfl, rfl, rfl, rfl⟩

lemma filterByContext_arb (st : AnalyzerState) (env : Env) (shortcuts : List Shortcut)
    (ev : InteractionEvent) : ArbFieldsEq (filterByContext st env shortcuts ev).1 st := by
  unfold filterByContext
  cases ht : ev.type
  all_goals simp only [ht]
  case selectionChange => exact filterSelectionChange_arb st env shortcuts ev
  case textChange => exact filterTextChange_arb st env shortcuts ev
  all_goals exact arbFieldsEq_refl st

lemma updateStateOnly_arb (st : AnalyzerState) (env : Env) (ev : InteractionEvent) :
    ArbFieldsEq (updateStateOnly st env ev).1 st := by
  unfold updateStateOnly
  split
  · exact filterTextChange_arb st env [] ev
  · split
    · exact filterSelectionChange_arb st env [] ev
    · exact arbFieldsEq_refl st

lemma findByPriority_mem (keys : List String) (shortcuts : List Shortcut)
    (s : Shortcut) (h : findByPriority keys shortcuts = some s) : s ∈ shortcuts := by
  induction keys with
  | nil => simp [findByPriority] at h
  | cons k ks ih =>
    rw [findByPriority] at h
    rcases hf : shortcuts.find? (fun x => x.shortcut == k) with _ | t
    · rw [hf] at h
      exact ih h
    · rw [hf] at h
      injection h with h'
      subst h'
      exact List.mem_of_find?_eq_some hf

lemma selectRandomShortcut_mem (env : Env) (l : List Shortcut) (s : Shortcut)
    (h : selectRandomShortcut env l = some s) : s ∈ l := by
  unfold selectRandomShortcut at h
  obtain ⟨hlt, heq⟩ := List.getElem?_eq_some.mp h
  exact heq ▸ List.getElem_mem hlt

lemma selectBestShortcut_mem (env : Env) (t : InteractionType) (l : List Shortcut)
    (s : Shortcut) (h : selectBestShortcut env t l = some s) : s ∈ l := by
  unfold selectBestShortcut at h
  by_cases h1 : t = InteractionType.textChange ∨ t = InteractionType.selectionChange
  · rw [if_pos h1] at h
    exact List.mem_of_mem_head? (Option.mem_def.mpr h)
  · rw [if_neg h1] at h
    by_cases h2 : t = InteractionType.tipOfTheDay ∧ 0 < l.length
    · rw [if_pos h2] at h
      exact List.mem_of_mem_head? (Option.mem_def.mpr h)
    · rw [if_neg h2] at h
      by_cases h3 : t = InteractionType.activeEditorChange ∧ 0 < l.length
      · rw [if_pos h3] at h
        by_cases hc : env.coin
        · rw [if_pos hc] at h
          exact List.mem_of_mem_head? (Option.mem_def.mpr h)
        · rw [if_neg hc] at h
          exact selectRandomShortcut_mem env l s h
      · rw [if_neg h3] at h
        rcases hw : (if t = InteractionType.windowStateChange then
            l.find? (fun x => x.shortcut == kAltTab) else none) with _ | w
        · simp only [hw] at h
          rcases hterm : (if t = InteractionType.activeTerminalChange then
              (match l.find? (fun x => x.shortcut == kCtrlBacktick) with
               | some x => some x
               | none => l.find? (fun x => x.shortcut == kCtrlUpDown)) else none) with _ | u
          · simp only [hterm] at h
            rcases hdbg : (if t = InteractionType.debugStart then
                findByPriority debugPriorityOrder l else none) with _ | v
            · simp only [hdbg] at h
              exact selectRandomShortcut_mem env l s h
            · simp only [hdbg] at h
              injection h with h'
              subst h'
              by_cases hd : t = InteractionType.debugStart
              · rw [if_pos hd] at hdbg
                exact findByPriority_mem _ l _ hdbg
              · rw [if_neg hd] at hdbg
                cases hdbg
          · simp only [hterm] at h
            injection h with h'
            subst h'
            by_cases hb : t = InteractionType.activeTerminalChange
            · rw [if_pos hb] at hterm
              rcases hf : l.find? (fun x => x.shortcut == kCtrlBacktick) with _ | u1
              · simp only [hf] at hterm
                exact List.mem_of_find?_eq_some hterm
              · simp only [hf] at hterm
                injection hterm with h''
                subst h''
                exact List.mem_of_find?_eq_some hf
            · rw [if_neg hb] at hterm
              cases hterm
        · simp only [hw] at h
          injection h with h'
          subst h'
          by_cases hwc : t = InteractionType.windowStateChange
          · rw [if_pos hwc] at hw
            exact List.mem_of_find?_eq_some hw
          · rw [if_neg hwc] at hw
            cases hw

lemma addKey_of_contains (l : List String) (k : String) (h : l.contains k = true) :
    addKey l k = l := by
  have hm : k ∈ l := by simpa using h
  simp [addKey, hm]

lemma stateOnly_result_no_emit (st1 : AnalyzerState) (env : Env) (ev : InteractionEvent)
    (s : Shortcut) (hs : (updateStateOnly st1 env ev).2.map (fun _ => none) =
      Except.ok (some s)) : False := by
  rcases hx : (updateStateOnly st1 env ev).2 with e | v <;> rw [hx] at hs <;>
    simp [Except.map] at hs

lemma arbitrate_session (st1 : AnalyzerState) (env : Env) (ev : InteractionEvent)
    (l : List Shortcut) (st' : AnalyzerState) (r : Except Unit (Option Shortcut))
    (h : arbitrate st1 env ev l = (st', r))
    (hlim : st1.sessionRecommendationLimit ≤ (st1.shownShortcuts.length : Int)) :
    (∀ s, r = Except.ok (some s) → st1.shownShortcuts.contains (getShortcutKey s) = true) ∧
    st'.shownShortcuts = st1.shownShortcuts ∧
    st'.sessionRecommendationLimit = st1.sessionRecommendationLimit := by
  have hu := updateStateOnly_arb st1 env ev
  simp only [arbitrate] at h
  rw [if_pos hlim] at h
  by_cases c1 : l.length = 0
  · rw [if_pos c1] at h
    injection h with ha hb
    subst ha
    subst hb
    exact ⟨fun s hs => absurd hs (fun hs => stateOnly_result_no_emit st1 env ev s hs),
      hu.2.2.2, hu.2.1⟩
  · rw [if_neg c1] at h
    by_cases c2 : (List.filter (fun s => !env.isLearned s.shortcut s.action) l).length = 0
    · rw [if_pos c2] at h
      injection h with ha hb
      subst ha
      subst hb
      exact ⟨fun s hs => absurd hs (fun hs => stateOnly_result_no_emit st1 env ev s hs),
        hu.2.2.2, hu.2.1⟩
    · rw [if_neg c2] at h
      by_cases c3 : (List.filter (fun s => st1.shownShortcuts.contains (getShortcutKey s))
          (List.filter (fun s => !env.isLearned s.shortcut s.action) l)).length = 0
      · rw [if_pos c3] at h
        injection h with ha hb
        subst ha
        subst hb
        exact ⟨fun s hs => absurd hs (fun hs => stateOnly_result_no_emit st1 env ev s hs),
          hu.2.2.2, hu.2.1⟩
      · rw [if_neg c3] at h
        rcases hsel : selectBestShortcut env ev.type
            (List.filter (fun s => st1.shownShortcuts.contains (getShortcutKey s))
              (List.filter (fun s => !env.isLearned s.shortcut s.action) l))
          with _ | selectedShortcut
        · simp only [hsel] at h
          injection h with ha hb
          subst ha
          subst hb
          exact ⟨(fun s hs => by cases hs), rfl, rfl⟩
        · simp only [hsel] at h
          injection h with ha hb
          subst ha
          subst hb
          have hmem := selectBestShortcut_mem env ev.type _ selectedShortcut hsel
          rw [List.mem_filter] at hmem
          refine ⟨?_, ?_, rfl⟩
          · intro s hs
            injection hs with hs'
            injection hs' with hs''
            subst hs''
            exact hmem.2
          · simp only [addKey_of_contains _ _ hmem.2]

lemma arbitrate_emit (st1 : AnalyzerState) (env : Env) (ev : InteractionEvent)
    (l : List Shortcut) (st' : AnalyzerState) (s : Shortcut)
    (h : arbitrate st1 env ev l = (st', Except.ok (some s))) :
    st'.lastRecommendationTime = env.now ∧
    st'.cooldownInterval = st1.cooldownInterval ∧
    s ∈ l ∧ env.isLearned s.shortcut s.action = false := by
  simp only [arbitrate] at h
  by_cases c1 : l.length = 0
  · rw [if_pos c1] at h
    injection h with ha hb
    exact (stateOnly_result_no_emit st1 env ev s hb).elim
  · rw [if_neg c1] at h
    by_cases c2 : (List.filter (fun s => !env.isLearned s.shortcut s.action) l).length = 0
    · rw [if_pos c2] at h
      injection h with ha hb
      exact (stateOnly_result_no_emit st1 env ev s hb).elim
    · rw [if_neg c2] at h
      by_cases c3 : ((if st1.sessionRecommendationLimit ≤ (st1.shownShortcuts.length : Int) then
          List.filter (fun s => st1.shownShortcuts.contains (getShortcutKey s))
            (List.filter (fun s => !env.isLearned s.shortcut s.action) l)
        else List.filter (fun s => !env.isLearned s.shortcut s.action) l).length = 0)
      · rw [if_pos c3] at h
        injection h with ha hb
        exact (stateOnly_result_no_emit st1 env ev s hb).elim
      · rw [if_neg c3] at h
        rcases hsel : selectBestShortcut env ev.type
            (if st1.sessionRecommendationLimit ≤ (st1.shownShortcuts.length : Int) then
              List.filter (fun s => st1.shownShortcuts.contains (getShortcutKey s))
                (List.filter (fun s => !env.isLearned s.shortcut s.action) l)
            else List.filter (fun s => !env.isLearned s.shortcut s.action) l)
          with _ | selectedShortcut
        · simp only [hsel] at h
          injection h with ha hb
          cases hb
        · simp only [hsel] at h
          injection h with ha hb
          injection hb with hb'
          injection hb' with hb''
          subst hb''
          subst ha
          have hmem := selectBestShortcut_mem env ev.type _ _ hsel
          have hunl : selectedShortcut ∈
              List.filter (fun x => !env.isLearned x.shortcut x.action) l := by
            by_cases hl : st1.sessionRecommendationLimit ≤ (st1.shownShortcuts.length : Int)
            · rw [if_pos hl] at hmem
              exact (List.mem_filter.mp hmem).1
            · rw [if_neg hl] at hmem
              exact hmem
          obtain ⟨hl', hlearn⟩ := List.mem_filter.mp hunl
          refine ⟨rfl, rfl, hl', ?_⟩
          simpa using hlearn

lemma analyzeInteraction_gate (st : AnalyzerState) (env : Env) (ev : InteractionEvent)
    (h1 : ev.type ≠ InteractionType.tipOfTheDay)
    (h2 : env.now - st.lastRecommendationTime < st.cooldownInterval) :
    analyzeInteraction st env ev =
      ((updateStateOnly st env ev).1, (updateStateOnly st env ev).2.map (fun _ => none)) := by
  simp only [analyzeInteraction]
  rw [if_pos ⟨h1, h2⟩]

lemma analyzeInteraction_emit (st : AnalyzerState) (env : Env) (ev : InteractionEvent)
    (st' : AnalyzerState) (s : Shortcut)
    (h : analyzeInteraction st env ev = (st', Except.ok (some s))) :
    st'.lastRecommendationTime = env.now ∧
    st'.cooldownInterval = st.cooldownInterval ∧
    env.isLearned s.shortcut s.action = false := by
  simp only [analyzeInteraction] at h
  by_cases g : (ev.type ≠ InteractionType.tipOfTheDay ∧
      env.now - st.lastRecommendationTime < st.cooldownInterval)
  · rw [if_pos g] at h
    injection h with ha hb
    exact (stateOnly_result_no_emit st env ev s hb).elim
  · rw [if_neg g] at h
    by_cases hm : (env.catalog ev.type).length = 0
    · rw [if_pos hm] at h
      injection h with ha hb
      exact (stateOnly_result_no_emit st env ev s hb).elim
    · rw [if_neg hm] at h
      rcases hfc : (filterByContext st env (env.catalog ev.type) ev).2 with e | ctx
      · simp only [hfc] at h
        injection h with ha hb
        cases hb
      · simp only [hfc] at h
        have he := arbitrate_emit _ env ev ctx st' s h
        have harb := filterByContext_arb st env (env.catalog ev.type) ev
        exact ⟨he.1, he.2.1.trans harb.1, he.2.2.2⟩

lemma analyzeInteraction_session (st : AnalyzerState) (env : Env) (ev : InteractionEvent)
    (st' : AnalyzerState) (r : Except Unit (Option Shortcut))
    (h : analyzeInteraction st env ev = (st', r))
    (hlim : st.sessionRecommendationLimit ≤ (st.shownShortcuts.length : Int)) :
    (∀ s, r = Except.ok (some s) → st.shownShortcuts.contains (getShortcutKey s) = true) ∧
    st'.shownShortcuts = st.shownShortcuts ∧
    st'.sessionRecommendationLimit = st.sessionRecommendationLimit := by
  have hu := updateStateOnly_arb st env ev
  simp only [analyzeInteraction] at h
  by_cases g : (ev.type ≠ InteractionType.tipOfTheDay ∧
      env.now - st.lastRecommendationTime < st.cooldownInterval)
  · rw [if_pos g] at h
    injection h with ha hb
    subst ha
    subst hb
    exact ⟨fun s hs => absurd hs (fun hs => stateOnly_result_no_emit st env ev s hs),
      hu.2.2.2, hu.2.1⟩
  · rw [if_neg g] at h
    by_cases hm : (env.catalog ev.type).length = 0
    · rw [if_pos hm] at h
      injection h with ha hb
      subst ha
      subst hb
      exact ⟨fun s hs => absurd hs (fun hs => stateOnly_result_no_emit st env ev s hs),
        hu.2.2.2, hu.2.1⟩
    · rw [if_neg hm] at h
      have harb := filterByContext_arb st env (env.catalog ev.type) ev
      rcases hfc : (filterByContext st env (env.catalog ev.type) ev).2 with e | ctx
      · simp only [hfc] at h
        injection h with ha hb
        subst ha
        subst hb
        exact ⟨(fun s hs => by cases hs), harb.2.2.2, harb.2.1⟩
      · simp only [hfc] at h
        have hlim1 : (filterByContext st env (env.catalog ev.type) ev).1.sessionRecommendationLimit ≤
            (((filterByContext st env (env.catalog ev.type) ev).1.shownShortcuts.length : Nat) : Int) := by
          rw [harb.2.1, harb.2.2.2]
          exact hlim
        have hses := arbitrate_session _ env ev ctx st' r h hlim1
        refine ⟨?_, ?_, ?_⟩
        · intro s hs
          have := hses.1 s hs
          rwa [harb.2.2.2] at this
        · rw [hses.2.1, harb.2.2.2]
        · rw [hses.2.2, harb.2.1]

/-! ## Claims C1, C2, C3 -/

/-- C1: for every non-tipOfTheDay event arriving while the elapsed time since
the last recommendation is below the configured cooldown, `analyzeInteraction`
emits nothing and only runs the state-only update; hence of two qualifying
events closer than the cooldown at most one emits; and the
last-recommendation time is committed at selection time, before and
regardless of the presentation outcome. -/
theorem cooldown_gating :
    (∀ (st : AnalyzerState) (env : Env) (ev : InteractionEvent),
      ev.type ≠ InteractionType.tipOfTheDay →
      env.now - st.lastRecommendationTime < st.cooldownInterval →
      analyzeInteraction st env ev =
        ((updateStateOnly st env ev).1, (updateStateOnly st env ev).2.map (fun _ => none))) ∧
    (∀ (st st₁ st₂ : AnalyzerState) (env₁ env₂ : Env) (ev₁ ev₂ : InteractionEvent)
        (r₁ r₂ : Except Unit (Option Shortcut)),
      analyzeInteraction st env₁ ev₁ = (st₁, r₁) →
      analyzeInteraction st₁ env₂ ev₂ = (st₂, r₂) →
      ev₁.type ≠ InteractionType.tipOfTheDay →
      ev₂.type ≠ InteractionType.tipOfTheDay →
      env₂.now - env₁.now < st.cooldownInterval →
      ∀ s₁, r₁ = Except.ok (some s₁) → ∀ s₂, r₂ ≠ Except.ok (some s₂)) ∧
    (∀ (st : AnalyzerState) (env : Env) (ev : InteractionEvent)
        (o₁ o₂ : PresentationOutcome),
      (analyzeAndPresent st env ev o₁).1 = (analyzeAndPresent st env ev o₂).1) ∧
    (∀ (st : AnalyzerState) (env : Env) (ev : InteractionEvent)
        (st' : AnalyzerState) (s : Shortcut),
      analyzeInteraction st env ev = (st', Except.ok (some s)) →
      st'.lastRecommendationTime = env.now) := by
  refine ⟨?_, ?_, ?_, ?_⟩
  · intro st env ev h1 h2
    exact analyzeInteraction_gate st env ev h1 h2
  · intro st st₁ st₂ env₁ env₂ ev₁ ev₂ r₁ r₂ h₁ h₂ he₁ he₂ hsep s₁ hr₁ s₂ hr₂
    subst hr₁
    have hemit := analyzeInteraction_emit st env₁ ev₁ st₁ s₁ h₁
    have hgate : env₂.now - st₁.lastRecommendationTime < st₁.cooldownInterval := by
      rw [hemit.1, hemit.2.1]
      exact hsep
    have := analyzeInteraction_gate st₁ env₂ ev₂ he₂ hgate
    rw [this] at h₂
    injection h₂ with ha hb
    subst hb
    exact stateOnly_result_no_emit st₁ env₂ ev₂ s₂ hr₂
  · intro st env ev o₁ o₂
    unfold analyzeAndPresent
    rcases h2 : (analyzeInteraction st env ev).2 with e | v
    · simp only [h2]
    · rcases v with _ | s
      · simp only [h2]
      · simp only [h2]
        cases o₁ <;> cases o₂ <;> rfl
  · intro st env ev st' s h
    exact (analyzeInteraction_emit st env ev st' s h).1

def envC1 : Env := ⟨100, none, fun _ => [], fun _ _ => false, true, fun _ => 0⟩

def evC1 : InteractionEvent := ⟨InteractionType.fileSave, 0, some { document := some true }⟩

/-- Witness for C1: a fileSave event 100 ms into a 300000 ms cooldown is
gated to the state-only path. -/
theorem cooldown_gating_witness :
    analyzeInteraction (AnalyzerState.init 300000 3) envC1 evC1 =
      ((updateStateOnly (AnalyzerState.init 300000 3) envC1 evC1).1,
        (updateStateOnly (AnalyzerState.init 300000 3) envC1 evC1).2.map (fun _ => none)) :=
  cooldown_gating.1 (AnalyzerState.init 300000 3) envC1 evC1 (by decide) (by decide)

/-- C2: once the shown-this-session set has reached the session
recommendation limit, every later call only ever emits shortcuts whose key
is already in that set (new shortcuts are suppressed; the restriction
emptying the candidates means no emission), and the shown set stays fixed. -/
theorem session_cap (st : AnalyzerState) (inputs : List (Env × InteractionEvent))
    (hlim : st.sessionRecommendationLimit ≤ (st.shownShortcuts.length : Int)) :
    (∀ r ∈ (runAnalyzer st inputs).2, ∀ s, r = Except.ok (some s) →
      st.shownShortcuts.contains (getShortcutKey s) = true) ∧
    (runAnalyzer st inputs).1.shownShortcuts = st.shownShortcuts := by
  induction inputs generalizing st with
  | nil =>
    exact ⟨by simp [runAnalyzer], rfl⟩
  | cons p rest ih =>
    obtain ⟨env, ev⟩ := p
    rcases hstep : analyzeInteraction st env ev with ⟨st1, r⟩
    have hs := analyzeInteraction_session st env ev st1 r hstep hlim
    have hlim1 : st1.sessionRecommendationLimit ≤ (st1.shownShortcuts.length : Int) := by
      rw [hs.2.1, hs.2.2]
      exact hlim
    have ihr := ih st1 hlim1
    constructor
    · intro r' hr' s hs'
      simp only [runAnalyzer, hstep, List.mem_cons] at hr'
      rcases hr' with rfl | hmem
      · exact hs.1 s hs'
      · have := ihr.1 r' hmem s hs'
        rwa [hs.2.1] at this
    · simp only [runAnalyzer, hstep]
      rw [ihr.2, hs.2.1]

def shC2 : Shortcut := ⟨"Ctrl+S", "save file"⟩

def stC2 : AnalyzerState :=
  { AnalyzerState.init 300000 1 with shownShortcuts := [getShortcutKey shC2] }

def envC2 : Env :=
  ⟨1000000, none, fun t => if t = InteractionType.fileSave then [shC2] else [],
   fun _ _ => false, true, fun _ => 0⟩

def evC2 : InteractionEvent := ⟨InteractionType.fileSave, 0, some { document := some true }⟩

/-- Witness for C2: with the cap reached, a repeat of an already shown
shortcut may still be emitted and the shown set does not change. -/
theorem session_cap_witness :
    (∀ r ∈ (runAnalyzer stC2 [(envC2, evC2)]).2, ∀ s, r = Except.ok (some s) →
      stC2.shownShortcuts.contains (getShortcutKey s) = true) ∧
    (runAnalyzer stC2 [(envC2, evC2)]).1.shownShortcuts = stC2.shownShortcuts :=
  session_cap stC2 [(envC2, evC2)] (by decide)

/-- C3: a shortcut reported learned by the learned-shortcuts collaborator at
processing time is never the emitted recommendation of `analyzeInteraction`,
whatever the event and however far it passed catalog lookup and context
filtering. -/
theorem learned_suppression (st : AnalyzerState) (env : Env) (ev : InteractionEvent)
    (st' : AnalyzerState) (s : Shortcut)
    (h : analyzeInteraction st env ev = (st', Except.ok (some s))) :
    env.isLearned s.shortcut s.action = false :=
  (analyzeInteraction_emit st env ev st' s h).2.2

def shC3 : Shortcut := ⟨"Ctrl+S", "save file"⟩

def stC3 : AnalyzerState := AnalyzerState.init 300000 3

def envC3 : Env :=
  ⟨1000000, none, fun t => if t = InteractionType.fileSave then [shC3] else [],
   fun _ _ => false, true, fun _ => 0⟩

def evC3 : InteractionEvent := ⟨InteractionType.fileSave, 0, some { document := some true }⟩

/-- Witness for C3 at a concrete emitting call. -/
theorem learned_suppression_witness :
    envC3.isLearned shC3.shortcut shC3.action = false :=
  learned_suppression stC3 envC3 evC3 ((analyzeInteraction stC3 envC3 evC3).1) shC3 (by rfl)

/-! ## Claim C9: totality of the context filters -/

/-- The missing-context situations enumerated by the error taxonomy: no (or
empty) change list, no editor or no selections, no document, no window
state. -/
def lacksExpectedContext (ev : InteractionEvent) : Prop :=
  (ev.type = InteractionType.textChange ∧
    (ev.ctxChanges = none ∨ ev.ctxChanges = some [])) ∨
  (ev.type = InteractionType.selectionChange ∧
    (ev.ctxEditor = none ∨ ev.ctxSelections = none)) ∨
  ((ev.type = InteractionType.documentClose ∨ ev.type = InteractionType.fileSave) ∧
    ev.ctxDocument = none) ∨
  (ev.type = InteractionType.windowStateChange ∧ ev.ctxState = none)

/-- Well-formedness of an event against the ambient editor state: whatever
context is present indexes into existing lines, and a provided selections
array is non-empty. -/
def EventWellFormed (env : Env) (ev : InteractionEvent) : Prop :=
  (∀ c rest, ev.ctxChanges = some (c :: rest) →
    ∀ ed, env.activeTextEditor = some ed → c.rangeStartLine < ed.document.lineCount) ∧
  (∀ ed sels, ev.ctxEditor = some ed → ev.ctxSelections = some sels →
    ∃ sel rest, sels = sel :: rest ∧ sel.active.1 < ed.document.lineCount)

lemma lacks_filterTextChange (st : AnalyzerState) (env : Env) (shortcuts : List Shortcut)
    (ev : InteractionEvent) (h : ev.ctxChanges = none ∨ ev.ctxChanges = some []) :
    filterTextChange st env shortcuts ev = (st, .ok []) := by
  unfold filterTextChange
  rcases h with h | h <;> simp only [h]

lemma lacks_filterSelectionChange (st : AnalyzerState) (env : Env)
    (shortcuts : List Shortcut) (ev : InteractionEvent)
    (h : ev.ctxEditor = none ∨ ev.ctxSelections = none) :
    filterSelectionChange st env shortcuts ev = (st, .ok []) := by
  unfold filterSelectionChange
  rcases h with h | h
  · rcases hs : ev.ctxSelections with _ | sels <;> simp only [h, hs]
  · rcases he : ev.ctxEditor with _ | ed <;> simp only [he, h]

lemma lacks_filterByContext (st : AnalyzerState) (env : Env) (shortcuts : List Shortcut)
    (ev : InteractionEvent) (h : lacksExpectedContext ev) :
    filterByContext st env shortcuts ev = (st, .ok []) := by
  rcases h with ⟨ht, hc⟩ | ⟨ht, hc⟩ | ⟨ht, hc⟩ | ⟨ht, hc⟩
  · unfold filterByContext
    rw [ht]
    exact lacks_filterTextChange st env shortcuts ev hc
  · unfold filterByContext
    rw [ht]
    exact lacks_filterSelectionChange st env shortcuts ev hc
  · rcases ht with ht | ht <;> unfold filterByContext <;> rw [ht] <;> simp [hc]
  · unfold filterByContext
    rw [ht]
    simp [hc]

lemma lacks_updateStateOnly (st : AnalyzerState) (env : Env) (ev : InteractionEvent)
    (h : lacksExpectedContext ev) : updateStateOnly st env ev = (st, .ok ()) := by
  rcases h with ⟨ht, hc⟩ | ⟨ht, hc⟩ | ⟨ht, hc⟩ | ⟨ht, hc⟩
  · unfold updateStateOnly
    rw [if_pos ht, lacks_filterTextChange st env [] ev hc]
    rfl
  · unfold updateStateOnly
    rw [ht]
    simp [lacks_filterSelectionChange st env [] ev hc, Except.map]
  · rcases ht with ht | ht <;> simp [updateStateOnly, ht]
  · simp [updateStateOnly, ht]

lemma aggregateStep_line (st : AnalyzerState) (now : Int) (change : ContentChange) :
    (aggregateStep st now change).2.line = change.rangeStartLine := by
  unfold aggregateStep
  rcases hcur : st.currentEvent with _ | cur
  · simp [hcur, freshAggregate]
  · simp only [hcur]
    repeat' split
    all_goals simp_all [freshAggregate]

lemma wf_filterTextChange (st : AnalyzerState) (env : Env) (shortcuts : List Shortcut)
    (ev : InteractionEvent)
    (hwf : ∀ c rest, ev.ctxChanges = some (c :: rest) →
      ∀ ed, env.activeTextEditor = some ed → c.rangeStartLine < ed.document.lineCount) :
    (filterTextChange st env shortcuts ev).2 ≠ Except.error () := by
  unfold filterTextChange
  rcases hc : ev.ctxChanges with _ | ⟨_ | ⟨change, rest⟩⟩
  · simp
  · simp
  · simp only [hc]
    rcases he : env.activeTextEditor with _ | ed
    · simp
    · simp only [he]
      have hlt := hwf change rest hc ed he
      rcases hl : ed.document.lineAt? (aggregateStep st env.now change).2.line with _ | rawLine
      · rw [aggregateStep_line] at hl
        unfold Document.lineAt? at hl
        rw [List.getElem?_eq_getElem hlt] at hl
        cases hl
      · simp only [hl]
        simp

lemma wf_filterSelectionChange (st : AnalyzerState) (env : Env)
    (shortcuts : List Shortcut) (ev : InteractionEvent)
    (hwf : ∀ ed sels, ev.ctxEditor = some ed → ev.ctxSelections = some sels →
      ∃ sel rest, sels = sel :: rest ∧ sel.active.1 < ed.document.lineCount) :
    (filterSelectionChange st env shortcuts ev).2 ≠ Except.error () := by
  unfold filterSelectionChange
  rcases he : ev.ctxEditor with _ | ed
  · rcases hs : ev.ctxSelections with _ | sels <;> simp [he, hs]
  · rcases hs : ev.ctxSelections with _ | sels
    · simp [he, hs]
    · simp only [he, hs]
      obtain ⟨sel, rest, rfl, hlt⟩ := hwf ed sels he hs
      simp only [List.head?_cons]
      rcases hl : ed.document.lineAt? sel.active.1 with _ | lineText
      · unfold Document.lineAt? at hl
        rw [List.getElem?_eq_getElem hlt] at hl
        cases hl
      · simp only [hl]
        simp

/-- C9: a context filter faced with an event missing its expected context
fields short-circuits to the empty candidate list and `analyzeInteraction`
degrades to a silent no-op (state unchanged, no emission, no exception);
and on well-formed events no context filter throws. -/
theorem filters_total :
    (∀ (st : AnalyzerState) (env : Env) (shortcuts : List Shortcut)
        (ev : InteractionEvent), lacksExpectedContext ev →
      filterByContext st env shortcuts ev = (st, Except.ok []) ∧
      analyzeInteraction st env ev = (st, Except.ok none)) ∧
    (∀ (env : Env) (ev : InteractionEvent), EventWellFormed env ev →
      ∀ (st : AnalyzerState) (shortcuts : List Shortcut),
      (filterByContext st env shortcuts ev).2 ≠ Except.error ()) := by
  constructor
  · intro st env shortcuts ev h
    refine ⟨lacks_filterByContext st env shortcuts ev h, ?_⟩
    have hu := lacks_updateStateOnly st env ev h
    simp only [analyzeInteraction]
    by_cases g : (ev.type ≠ InteractionType.tipOfTheDay ∧
        env.now - st.lastRecommendationTime < st.cooldownInterval)
    · rw [if_pos g, hu]
      rfl
    · rw [if_neg g]
      by_cases hm : (env.catalog ev.type).length = 0
      · rw [if_pos hm, hu]
        rfl
      · rw [if_neg hm, lacks_filterByContext st env (env.catalog ev.type) ev h]
        simp [arbitrate, hu, Except.map]
  · intro env ev hwf st shortcuts
    rcases hwf with ⟨hwf1, hwf2⟩
    unfold filterByContext
    cases ht : ev.type
    all_goals simp only [ht]
    case textChange => exact wf_filterTextChange st env shortcuts ev hwf1
    case selectionChange => exact wf_filterSelectionChange st env shortcuts ev hwf2
    all_goals simp

def evC9 : InteractionEvent := ⟨InteractionType.textChange, 0, none⟩

def envC9 : Env := ⟨0, none, fun _ => [], fun _ _ => false, true, fun _ => 0⟩

/-- Witness for C9: a textChange event with no context at all is a silent
no-op. -/
theorem filters_total_witness :
    filterByContext (AnalyzerState.init 300000 3) envC9 [] evC9 =
      (AnalyzerState.init 300000 3, Except.ok []) ∧
    analyzeInteraction (AnalyzerState.init 300000 3) envC9 evC9 =
      (AnalyzerState.init 300000 3, Except.ok none) :=
  filters_total.1 (AnalyzerState.init 300000 3) envC9 [] evC9 (Or.inl ⟨rfl, Or.inl rfl⟩)

/-! ## Claim C5: aggregation correctness -/

lemma mk_append (l m : List Char) : String.mk l ++ String.mk m = String.mk (l ++ m) := rfl

lemma mk_length (l : List Char) : (String.mk l).length = l.length := rfl

lemma singleton_length (c : Char) : (String.singleton c).length = 1 := rfl

lemma aggregateStep_fresh (st : AnalyzerState) (now : Int) (change : ContentChange)
    (hcur : st.currentEvent = none) :
    (aggregateStep st now change).1.currentEvent = some (freshAggregate now change) := by
  unfold aggregateStep
  simp [hcur]

/-- The "Continue current event" update of the aggregation step, for an
addition. -/
def extendAggregate (cur : AggregatedEvent) (now : Int) (change : ContentChange) :
    AggregatedEvent where
  eventType := cur.eventType
  text :=
    if cur.text.length < maxEventTextLength then
      cur.text ++ jsTake change.text (maxEventTextLength - cur.text.length)
    else cur.text
  line := cur.line
  count := cur.count + change.text.length
  timestamp := now

lemma aggregateStep_extend (st : AnalyzerState) (now : Int) (change : ContentChange)
    (cur : AggregatedEvent) (hcur : st.currentEvent = some cur)
    (hline : cur.line = change.rangeStartLine)
    (htype : cur.eventType = AggKind.add)
    (hadd : 0 < change.text.length) :
    (aggregateStep st now change).1.currentEvent = some (extendAggregate cur now change) ∧
    (aggregateStep st now change).1.recentEvents = st.recentEvents := by
  unfold aggregateStep
  simp only [hcur, if_pos hadd]
  rw [if_pos ⟨hline, htype⟩]
  constructor
  · simp [hadd, extendAggregate]
  · rfl

lemma aggregateStep_close (st : AnalyzerState) (now : Int) (change : ContentChange)
    (cur : AggregatedEvent) (hcur : st.currentEvent = some cur)
    (hbreak : ¬ (cur.line = change.rangeStartLine ∧
      cur.eventType = (if 0 < change.text.length then AggKind.add else AggKind.delete))) :
    (aggregateStep st now change).1.currentEvent = some (freshAggregate now change) ∧
    (aggregateStep st now change).1.recentEvents =
      boundedAppend 50 st.recentEvents cur := by
  unfold aggregateStep
  simp only [hcur]
  rw [if_neg hbreak]
  exact ⟨rfl, rfl⟩

lemma filterTextChange_aggState (st : AnalyzerState) (env : Env)
    (shortcuts : List Shortcut) (ev : InteractionEvent) (change : ContentChange)
    (rest : List ContentChange) (hc : ev.ctxChanges = some (change :: rest)) :
    (filterTextChange st env shortcuts ev).1.currentEvent =
      (aggregateStep st env.now change).1.currentEvent ∧
    (filterTextChange st env shortcuts ev).1.recentEvents =
      (aggregateStep st env.now change).1.recentEvents := by
  unfold filterTextChange
  simp only [hc]
  cases henv : env.activeTextEditor with
  | none =>
    simp only [henv]
    constructor <;> trivial
  | some ed =>
    simp only [henv]
    cases hl : ed.document.lineAt? (aggregateStep st env.now change).2.line with
    | none =>
      simp only [hl]
      constructor <;> trivial
    | some rawLine =>
      simp only [hl]
      constructor <;> trivial

/-- One analyzed call of a text-change insertion stream: its ambient
environment, the shortcut list handed to the filter, and the character. -/
structure C5Call where
  env : Env
  shortcuts : List Shortcut
  ch : Char

/-- A single-character insertion event at line `L`. -/
def mkInsertEvent (L : Nat) (c : Char) : InteractionEvent :=
  ⟨InteractionType.textChange, 0,
   some { changes := some [⟨String.singleton c, L, 0, 0⟩] }⟩

/-- Fold a stream of single-character insertions at line `L` through
`filterTextChange`, keeping the analyzer state. -/
def c5Fold (st : AnalyzerState) (L : Nat) (calls : List C5Call) : AnalyzerState :=
  calls.foldl
    (fun s call => (filterTextChange s call.env call.shortcuts (mkInsertEvent L call.ch)).1)
    st

lemma c5_step (st : AnalyzerState) (env : Env) (shortcuts : List Shortcut) (L : Nat)
    (c : Char) (acc : List Char) (t : Int)
    (hcur : st.currentEvent =
      some ⟨AggKind.add, String.mk (acc.take 100), L, acc.length, t⟩) :
    (filterTextChange st env shortcuts (mkInsertEvent L c)).1.currentEvent =
      some ⟨AggKind.add, String.mk ((acc ++ [c]).take 100), L, acc.length + 1, env.now⟩ := by
  have hc : (mkInsertEvent L c).ctxChanges = some [⟨String.singleton c, L, 0, 0⟩] := rfl
  rw [(filterTextChange_aggState st env shortcuts _ _ [] hc).1]
  have hext := (aggregateStep_extend st env.now ⟨String.singleton c, L, 0, 0⟩ _ hcur rfl rfl
    (by rw [singleton_length]; omega)).1
  rw [hext]
  simp only [extendAggregate, Option.some.injEq, AggregatedEvent.mk.injEq]
  refine ⟨by trivial, ?_, by trivial, ?_, by trivial⟩
  · by_cases hlen : acc.length < 100
    · have htake : acc.take 100 = acc := List.take_of_length_le (by omega)
      have hlen' : (String.mk (acc.take 100)).length < maxEventTextLength := by
        simpa [mk_length, htake, maxEventTextLength] using hlen
      rw [if_pos hlen']
      have hjs : jsTake (String.singleton c)
          (maxEventTextLength - (String.mk (acc.take 100)).length) = String.mk [c] := by
        unfold jsTake
        congr 1
        rw [show (String.singleton c).data = [c] from rfl]
        refine List.take_of_length_le ?_
        simp [mk_length, htake, maxEventTextLength]
        omega
      rw [hjs, mk_append]
      congr 1
      rw [htake]
      symm
      refine List.take_of_length_le ?_
      rw [List.length_append]
      simp
      omega
    · have hlen' : ¬ (String.mk (acc.take 100)).length < maxEventTextLength := by
        simp [mk_length, List.length_take, maxEventTextLength]
        omega
      rw [if_neg hlen']
      congr 1
      rw [List.take_append_eq_append_take, show 100 - acc.length = 0 by omega]
      simp
  · rw [singleton_length]

lemma c5_invariant (L : Nat) (calls : List C5Call) :
    ∀ (st : AnalyzerState) (acc : List Char) (t : Int),
    st.currentEvent = some ⟨AggKind.add, String.mk (acc.take 100), L, acc.length, t⟩ →
    ∃ t', (c5Fold st L calls).currentEvent =
      some ⟨AggKind.add, String.mk ((acc ++ calls.map C5Call.ch).take 100), L,
        acc.length + calls.length, t'⟩ := by
  induction calls with
  | nil =>
    intro st acc t hcur
    refine ⟨t, ?_⟩
    simpa [c5Fold] using hcur
  | cons call rest ih =>
    intro st acc t hcur
    have hstep := c5_step st call.env call.shortcuts L call.ch acc t hcur
    have hrec := ih
      ((filterTextChange st call.env call.shortcuts (mkInsertEvent L call.ch)).1)
      (acc ++ [call.ch]) call.env.now (by simpa using hstep)
    obtain ⟨t', h'⟩ := hrec
    refine ⟨t', ?_⟩
    rw [show c5Fold st L (call :: rest) =
      c5Fold ((filterTextChange st call.env call.shortcuts (mkInsertEvent L call.ch)).1)
        L rest from rfl]
    rw [h']
    simp [List.append_assoc]
    omega

/-- C5: a stream of single-character insertions on one line keeps a single
open aggregate of kind `add` whose `count` equals the number of inserted
characters while its sample text is the insertion stream truncated to the
100-character cap; and a text change on a different line or in the opposite
direction pushes the open aggregate to the history queue and opens a fresh
one. -/
theorem aggregation_correctness :
    (∀ (L : Nat) (calls : List C5Call) (st : AnalyzerState),
      st.currentEvent = none → calls ≠ [] →
      ∃ t, (c5Fold st L calls).currentEvent =
        some ⟨AggKind.add, String.mk ((calls.map C5Call.ch).take 100), L,
          calls.length, t⟩) ∧
    (∀ (st : AnalyzerState) (env : Env) (shortcuts : List Shortcut)
        (ev : InteractionEvent) (change : ContentChange) (rest : List ContentChange)
        (cur : AggregatedEvent),
      st.currentEvent = some cur →
      ev.ctxChanges = some (change :: rest) →
      (cur.line ≠ change.rangeStartLine ∨
        cur.eventType ≠ (if 0 < change.text.length then AggKind.add else AggKind.delete)) →
      (filterTextChange st env shortcuts ev).1.currentEvent =
        some (freshAggregate env.now change) ∧
      (filterTextChange st env shortcuts ev).1.recentEvents =
        boundedAppend 50 st.recentEvents cur) := by
  constructor
  · intro L calls st hnone hne
    rcases calls with _ | ⟨call, rest⟩
    · exact absurd rfl hne
    · have hc : (mkInsertEvent L call.ch).ctxChanges =
          some [⟨String.singleton call.ch, L, 0, 0⟩] := rfl
      have hfirst : (filterTextChange st call.env call.shortcuts
          (mkInsertEvent L call.ch)).1.currentEvent =
          some ⟨AggKind.add, String.mk ([call.ch].take 100), L, [call.ch].length,
            call.env.now⟩ := by
        rw [(filterTextChange_aggState st call.env call.shortcuts _ _ [] hc).1]
        rw [aggregateStep_fresh st call.env.now _ hnone]
        rfl
      obtain ⟨t, hfin⟩ := c5_invariant L rest _ [call.ch] call.env.now hfirst
      refine ⟨t, ?_⟩
      rw [show c5Fold st L (call :: rest) =
        c5Fold ((filterTextChange st call.env call.shortcuts (mkInsertEvent L call.ch)).1)
          L rest from rfl]
      rw [hfin]
      simp
      omega
  · intro st env shortcuts ev change rest cur hcur hc hbreak
    have hclose := aggregateStep_close st env.now change cur hcur (by tauto)
    have hsame := filterTextChange_aggState st env shortcuts ev change rest hc
    exact ⟨hsame.1.trans hclose.1, hsame.2.trans hclose.2⟩

def c5Env (n : Int) : Env := ⟨n, none, fun _ => [], fun _ _ => false, true, fun _ => 0⟩

def c5Calls : List C5Call := [⟨c5Env 1, [], 'a'⟩, ⟨c5Env 2, [], 'b'⟩, ⟨c5Env 3, [], 'c'⟩]

def c5CloseState : AnalyzerState :=
  { AnalyzerState.init 300000 3 with
    currentEvent := some ⟨AggKind.add, String.mk ['x'], 5, 1, 0⟩ }

def c5DeleteChange : ContentChange := ⟨"", 5, 0, 1⟩

def c5DeleteEvent : InteractionEvent :=
  ⟨InteractionType.textChange, 0, some { changes := some [c5DeleteChange] }⟩

/-- Witness for C5: three insertions aggregate to count 3 and text "abc";
a same-line delete closes the aggregate into the queue. -/
theorem aggregation_correctness_witness :
    (∃ t, (c5Fold (AnalyzerState.init 300000 3) 0 c5Calls).currentEvent =
      some ⟨AggKind.add, String.mk ((c5Calls.map C5Call.ch).take 100), 0,
        c5Calls.length, t⟩) ∧
    ((filterTextChange c5CloseState (c5Env 9) [] c5DeleteEvent).1.currentEvent =
      some (freshAggregate (c5Env 9).now c5DeleteChange) ∧
    (filterTextChange c5CloseState (c5Env 9) [] c5DeleteEvent).1.recentEvents =
      boundedAppend 50 c5CloseState.recentEvents ⟨AggKind.add, String.mk ['x'], 5, 1, 0⟩) :=
  ⟨aggregation_correctness.1 0 c5Calls (AnalyzerState.init 300000 3) rfl (by simp [c5Calls]),
   aggregation_correctness.2 c5CloseState (c5Env 9) [] c5DeleteEvent c5DeleteChange []
     ⟨AggKind.add, String.mk ['x'], 5, 1, 0⟩ rfl rfl (Or.inr (by decide))⟩

/-! ## Claim C7: toggle-comment detection and debounce -/

def shToggleComment : Shortcut := ⟨"Ctrl+/", "toggle line comment"⟩

def pyEnv1 : Env :=
  ⟨1000000, some ⟨⟨["#"], "python"⟩⟩, fun _ => [], fun _ _ => false, true, fun _ => 0⟩

def pyEnv2 : Env :=
  ⟨1001000, some ⟨⟨["##"], "python"⟩⟩, fun _ => [], fun _ _ => false, true, fun _ => 0⟩

def pyInsertHash : InteractionEvent :=
  ⟨InteractionType.textChange, 0, some { changes := some [⟨"#", 0, 0, 0⟩] }⟩

/-- C7: the comment-detection section fires (pushing exactly the `Ctrl+/`
shortcuts and re-arming the timestamp) when the trimmed line starts with the
language's comment token for an addition — or does not start with it with a
removal count of at most token length + 1 for a deletion — and the last
firing is more than 10 minutes past; within the 10-minute window it pushes
nothing; concretely, inserting `#` on a Python line whose content becomes
`#` fires once and a repeat 1 s later is suppressed. -/
theorem toggle_comment_debounce :
    (∀ (lastComment now : Int) (lang rawLine : String) (current : AggregatedEvent)
        (shortcuts : List Shortcut),
      commentCharFor lang ≠ "" →
      ((current.eventType = AggKind.add ∧
          jsStartsWith (jsTrim rawLine) (commentCharFor lang) = true) ∨
        (current.eventType = AggKind.delete ∧
          jsStartsWith (jsTrim rawLine) (commentCharFor lang) = false ∧
          current.count ≤ (commentCharFor lang).length + 1)) →
      600000 < now - lastComment →
      commentSection lastComment now lang rawLine current shortcuts =
        (now, shortcuts.filter (fun s => s.shortcut == kCtrlSlash))) ∧
    (∀ (lastComment now : Int) (lang rawLine : String) (current : AggregatedEvent)
        (shortcuts : List Shortcut),
      ¬ 600000 < now - lastComment →
      (commentSection lastComment now lang rawLine current shortcuts).2 = []) ∧
    ((filterTextChange (AnalyzerState.init 300000 3) pyEnv1 [shToggleComment]
        pyInsertHash).2 = Except.ok [shToggleComment] ∧
      (filterTextChange (filterTextChange (AnalyzerState.init 300000 3) pyEnv1
          [shToggleComment] pyInsertHash).1 pyEnv2 [shToggleComment]
        pyInsertHash).2 = Except.ok []) := by
  refine ⟨?_, ?_, ?_, ?_⟩
  · intro lastComment now lang rawLine current shortcuts hcc hact hdeb
    unfold commentSection
    rw [if_pos (by rcases hact with ⟨h, _⟩ | ⟨h, _⟩ <;> [exact Or.inl h; exact Or.inr h])]
    rw [if_pos hcc, if_pos hact, if_pos hdeb]
  · intro lastComment now lang rawLine current shortcuts hdeb
    unfold commentSection
    dsimp only
    repeat' split
    all_goals rfl
  · rfl
  · rfl

def c7Agg : AggregatedEvent := ⟨AggKind.add, String.mk ['#'], 0, 1, 0⟩

/-- Witness for C7 at a concrete Python insertion. -/
theorem toggle_comment_debounce_witness :
    commentSection 0 1000000 "python" "#" c7Agg [shToggleComment] =
      (1000000, [shToggleComment].filter (fun s => s.shortcut == kCtrlSlash)) :=
  toggle_comment_debounce.1 0 1000000 "python" "#" c7Agg [shToggleComment]
    (by decide) (Or.inl ⟨rfl, by decide⟩) (by decide)

/-! ## Claim C8: cursor to line start/end -/

/-- The claim's notion of a strictly interior previous column: not at the
line start, not at the first-non-whitespace index, not at the line end. -/
def specStrictlyInterior (prevColumn fnws lineLength : Nat) : Prop :=
  prevColumn ≠ 0 ∧ prevColumn ≠ fnws ∧ prevColumn ≠ lineLength

def shFnEnd : Shortcut := ⟨"Fn+→ / End", "move cursor to line end"⟩

def c8Doc : Document := ⟨["  abc"], "plaintext"⟩

def c8Sel : Selection := ⟨(0, 5), (0, 5)⟩

def c8Event : InteractionEvent :=
  ⟨InteractionType.selectionChange, 0,
   some { editor := some ⟨c8Doc⟩, selections := some [c8Sel] }⟩

def c8State : AnalyzerState :=
  { AnalyzerState.init 300000 3 with previousCursorPosition := some (0, 2) }

def c8Env : Env := ⟨1000000, none, fun _ => [], fun _ _ => false, true, fun _ => 0⟩

/-- C8 counterexample: on the line `"  abc"` (first non-whitespace index 2,
length 5), a cursor jump from column 2 — exactly the first-non-whitespace
index, which the claim excludes — to the line end still fires the "to end"
detection, because the code's end branch only requires
`1 ≤ prev ≤ length - 1`. -/
theorem cursor_start_end_counterexample :
    (filterSelectionChange c8State c8Env [shFnEnd] c8Event).2 = Except.ok [shFnEnd] ∧
    firstNonWhitespaceIndex "  abc" = 2 ∧
    ¬ specStrictlyInterior 2 (firstNonWhitespaceIndex "  abc") 5 := by
  refine ⟨rfl, rfl, ?_⟩
  intro h
  exact absurd rfl h.2.1

/-- C8 (amended): with an empty selection, no text change within the last
500 ms, and the previous empty-selection cursor on the same line at column
`pc`, the section pushes the `Fn+←` family exactly when the current column
is 0 or the first-non-whitespace index with `1 ≤ pc ≤ length-1` and
`fnws < pc`, and pushes the `Fn+→` family when the current column equals the
line length with only `1 ≤ pc ≤ length-1` (the previous column may sit at
or before the first-non-whitespace index); a recent text change suppresses
the section entirely, as does a previous position on a different line. -/
theorem cursor_start_end_amended :
    (∀ (prev : Option Pos) (ltc now : Int) (sel : Selection) (lineLength fnws : Nat)
        (shortcuts : List Shortcut),
      sel.isEmptyB = true → now - ltc < 500 →
      (cursorStartEndSection prev ltc now sel lineLength fnws shortcuts).2 = []) ∧
    (∀ (pc : Nat) (ltc now : Int) (sel : Selection) (lineLength fnws : Nat)
        (shortcuts : List Shortcut),
      sel.isEmptyB = true → ¬ now - ltc < 500 →
      1 ≤ pc → pc ≤ lineLength - 1 → sel.active.2 = lineLength → 0 < lineLength →
      (cursorStartEndSection (some (sel.active.1, pc)) ltc now sel lineLength fnws
        shortcuts).2 = shortcuts.filter (fun s => strContains s.shortcut kFnRight)) ∧
    (∀ (pc : Nat) (ltc now : Int) (sel : Selection) (lineLength fnws : Nat)
        (shortcuts : List Shortcut),
      sel.isEmptyB = true → ¬ now - ltc < 500 →
      1 ≤ pc → pc ≤ lineLength - 1 → fnws < pc → sel.active.2 = 0 → 0 < lineLength →
      (cursorStartEndSection (some (sel.active.1, pc)) ltc now sel lineLength fnws
        shortcuts).2 = shortcuts.filter (fun s => strContains s.shortcut kFnLeft)) ∧
    (∀ (pl pc : Nat) (ltc now : Int) (sel : Selection) (lineLength fnws : Nat)
        (shortcuts : List Shortcut),
      sel.isEmptyB = true → pl ≠ sel.active.1 →
      (cursorStartEndSection (some (pl, pc)) ltc now sel lineLength fnws
        shortcuts).2 = []) := by
  refine ⟨?_, ?_, ?_, ?_⟩
  · intro prev ltc now sel lineLength fnws shortcuts hemp htyping
    unfold cursorStartEndSection
    rw [if_pos hemp]
    rcases prev with _ | ⟨pl, pc⟩
    · rfl
    · dsimp only
      rw [if_neg (by intro hcon; exact hcon.1 htyping)]
  · intro pc ltc now sel lineLength fnws shortcuts hemp htyping h1 h2 hcc hlen
    unfold cursorStartEndSection
    rw [if_pos hemp]
    dsimp only
    rw [if_pos ⟨htyping, rfl⟩]
    rw [if_neg ?toStart, if_pos ⟨hcc, h1, h2⟩]
    · simp
    case toStart =>
      rintro ⟨hcol, ⟨hp1, hp2⟩, hfnws⟩
      rcases hcol with hcol | hcol
      · rw [hcc] at hcol
        omega
      · rw [hcc] at hcol
        omega
  · intro pc ltc now sel lineLength fnws shortcuts hemp htyping h1 h2 hfnws hcc hlen
    unfold cursorStartEndSection
    rw [if_pos hemp]
    dsimp only
    rw [if_pos ⟨htyping, rfl⟩]
    rw [if_pos ⟨Or.inl hcc, ⟨h1, h2⟩, hfnws⟩, if_neg ?toEnd]
    · simp
    case toEnd =>
      rintro ⟨hcol, hp1, hp2⟩
      rw [hcc] at hcol
      omega
  · intro pl pc ltc now sel lineLength fnws shortcuts hemp hne
    unfold cursorStartEndSection
    rw [if_pos hemp]
    dsimp only
    rw [if_neg (by rintro ⟨h1, h2⟩; exact hne h2)]

/-- Witness for the amended C8 on the counterexample configuration. -/
theorem cursor_start_end_amended_witness :
    (cursorStartEndSection (some (0, 2)) 0 1000000 c8Sel 5 2 [shFnEnd]).2 =
      [shFnEnd].filter (fun s => strContains s.shortcut kFnRight) :=
  cursor_start_end_amended.2.1 2 0 1000000 c8Sel 5 2 [shFnEnd]
    (by decide) (by decide) (by decide) (by decide) (by decide) (by decide)
